import Mathlib

/-!
# Verification of the randomseat_plus seating solver

A shallow embedding of the constraint-satisfaction core of
`src/randomseat_plus.py`: seat data model, adjacency-map construction,
the per-placement feasibility checker, the backtracking solver and the
multi-layout generator, together with theorems settling the frozen claims.

Modelling conventions:
* Python `int` is `Int`; a Python `set[int]` is a duplicate-free
  `List Int` in an arbitrary enumeration order (every result below is
  insensitive to that order; `len` is `List.length`, `in` is list
  membership, `set.add` appends when absent).
* A Python `dict` (insertion ordered) is an association list
  `List (Int × V)`; `dget` is `d.get(k)` / `d[k]`, `dset` is `d[k] = v`,
  `ddel` is `del d[k]`.
* A `collections.defaultdict(set)` is also an association list, but a
  subscript access `d[k]` goes through `ddGet`, which inserts the missing
  key with an empty set exactly as the Python class does.  `dview` is the
  pure value view (missing key read as the empty set).
* `random.shuffle` (the process-wide PRNG) is an oracle
  `shuffle : R → List Int → List Int × R` threaded through the search in
  the order the source calls it; theorems quantify over all oracles whose
  output only rearranges (or drops) elements of the input, so every actual
  randomized execution is an instance.
* `st.session_state["seat_by_id"]` (ambient Streamlit session state read
  by the checker) is a separate parameter `seat_by_id : Int → Option Seat`;
  a `none` lookup is Python's `KeyError`, surfaced as the outer `none` of
  result types (an exception, distinct from the solver's own `None`,
  which is the inner `none`).
* In-place mutation of the caller's `students` list by
  `generate_multiple_layouts` is modelled by returning the post-call list.
-/

/-- `Seat` dataclass of the source: id, row (front/back), col (left/right). -/
structure Seat where
  id : Int
  row : Int
  col : Int
deriving DecidableEq, Repr

/-- `StudentConstraint` dataclass of the source. `allowed_rows = none` means
no row restriction (distinct from `some []`, which allows no seat); the four
sets are modelled as duplicate-free lists. -/
structure StudentConstraint where
  id : Int
  allowed_rows : Option (List Int)
  allowed_cols : Option (List Int)
  must_be_adjacent_to : List Int
  must_not_adjacent_to : List Int
deriving DecidableEq, Repr

/-- Python `d.get(k)` / `k in d` on an insertion-ordered dict modelled as an
association list (first entry with the key wins; `dset` keeps keys unique). -/
def dget {V : Type} : List (Int × V) → Int → Option V
  | [], _ => none
  | (k, v) :: rest, k' => if k = k' then some v else dget rest k'

/-- Python `d[k] = v`: update in place if the key exists (insertion order
kept), otherwise append at the end. -/
def dset {V : Type} (d : List (Int × V)) (k : Int) (v : V) : List (Int × V) :=
  if (dget d k).isSome then d.map (fun p => if p.1 = k then (k, v) else p)
  else d ++ [(k, v)]

/-- Python `del d[k]`: drop the entry with key `k`, order of the rest kept. -/
def ddel {V : Type} (d : List (Int × V)) (k : Int) : List (Int × V) :=
  d.filter (fun p => decide (p.1 ≠ k))

/-- Value view of a `defaultdict(set)`: a missing key reads as the empty set. -/
def dview (d : List (Int × List Int)) (k : Int) : List Int :=
  (dget d k).getD []

/-- Subscript access `d[k]` on a `defaultdict(set)`: returns the stored set,
inserting the key with an empty set first when it is missing (the side
effect of `collections.defaultdict.__getitem__`). -/
def ddGet (d : List (Int × List Int)) (k : Int) : List Int × List (Int × List Int) :=
  match dget d k with
  | some v => (v, d)
  | none => ([], d ++ [(k, [])])

/-- Python `set.add(v)` on a set-as-list: append when absent. -/
def setAdd (s : List Int) (v : Int) : List Int :=
  if v ∈ s then s else s ++ [v]

/-- Combined effect of `d[k].add(v)` on a `defaultdict(set)`: the key's set
gains `v`; a missing key is created. -/
def ddAdd (d : List (Int × List Int)) (k v : Int) : List (Int × List Int) :=
  if (dget d k).isSome then d.map (fun p => if p.1 = k then (p.1, setAdd p.2 v) else p)
  else d ++ [(k, [v])]

/-- Body of the double loop of `build_adjacency_maps` for the ordered pair
`(s1, s2)`: skip equal ids, then add to `adjacent_lr` when the row distance
is 0 and the column distance is 1, and to `adjacent_9` when both distances
are at most 1. -/
def adjStep (s1 : Seat) (acc : List (Int × List Int) × List (Int × List Int)) (s2 : Seat) :
    List (Int × List Int) × List (Int × List Int) :=
  if s1.id = s2.id then acc
  else
    let dr := (s1.row - s2.row).natAbs
    let dc := (s1.col - s2.col).natAbs
    let lr := if dr = 0 ∧ dc = 1 then ddAdd acc.1 s1.id s2.id else acc.1
    let a9 := if dr ≤ 1 ∧ dc ≤ 1 then ddAdd acc.2 s1.id s2.id else acc.2
    (lr, a9)

/-- `build_adjacency_maps(seats)` of the source: the two defaultdicts
`adjacent_lr` (left-right neighbours) and `adjacent_9` (8-neighbourhood),
built by the nested loop over all ordered seat pairs. -/
def build_adjacency_maps (seats : List Seat) :
    List (Int × List Int) × List (Int × List Int) :=
  seats.foldl (fun acc s1 => seats.foldl (adjStep s1) acc) ([], [])

/-- `is_seat_allowed_for_student(seat, sc)` of the source: a `None`
constraint allows everything; otherwise the seat's row (column) must lie in
`allowed_rows` (`allowed_cols`) whenever that set is present. -/
def is_seat_allowed_for_student (seat : Seat) (sc : Option StudentConstraint) : Bool :=
  match sc with
  | none => true
  | some c =>
    if (match c.allowed_rows with
        | some rs => decide (seat.row ∉ rs)
        | none => false) then false
    else if (match c.allowed_cols with
        | some cs => decide (seat.col ∉ cs)
        | none => false) then false
    else true

/-- Loop 2a of `check_partial_constraints` (own "must be adjacent"): every
already-placed `other` of the listed ids must sit in `adjacent_lr[seat_id]`. -/
def mustBeOK (assignments : List (Int × Int)) (seat_id : Int)
    (adjacent_lr : Int → List Int) (others : List Int) : Bool :=
  others.all fun other =>
    match dget assignments other with
    | some other_seat => decide (other_seat ∈ adjacent_lr seat_id)
    | none => true

/-- Loop 2b of `check_partial_constraints` (own "must not be adjacent"):
every already-placed `other` of the listed ids must be outside
`adj seat_id`, where `adj` is `adjacent_9` in strict mode and `adjacent_lr`
in relaxed mode. -/
def mustNotOK (assignments : List (Int × Int)) (seat_id : Int)
    (adj : Int → List Int) (others : List Int) : Bool :=
  others.all fun other =>
    match dget assignments other with
    | some other_seat => decide (other_seat ∉ adj seat_id)
    | none => true

/-- Loop 3 of `check_partial_constraints` (reverse checks): for every placed
`(other, other_seat)` whose own constraint names `student_id`, the source
requires `other_seat ∈ adjacent_lr[seat_id]` for a "must be adjacent"
declaration, and `seat_id ∉ adjacent_9[other_seat]` (strict) resp.
`seat_id ∉ adjacent_lr[other_seat]` (relaxed) for a "must not" declaration. -/
def reverseOK (assignments : List (Int × Int)) (student_id seat_id : Int)
    (constraints : List (Int × StudentConstraint))
    (adjacent_lr adjacent_9 : Int → List Int)
    (use_strict_non_adjacent : Bool) : Bool :=
  assignments.all fun p =>
    match dget constraints p.1 with
    | none => true
    | some osc =>
      (if student_id ∈ osc.must_be_adjacent_to
       then decide (p.2 ∈ adjacent_lr seat_id) else true)
      && (if student_id ∈ osc.must_not_adjacent_to
          then (if use_strict_non_adjacent
                then decide (seat_id ∉ adjacent_9 p.2)
                else decide (seat_id ∉ adjacent_lr p.2))
          else true)

/-- `check_partial_constraints` of the source, value-level version: the
adjacency maps enter as their value views (`Int → List Int`), and the
ambient session seat lookup is the explicit last argument `seat_by_id`.
Result `none` is the `KeyError` raised when `seat_id` is not in the session
`seat_by_id` dict; `some b` is the returned boolean. -/
def check_partial_constraints (assignments : List (Int × Int))
    (student_id seat_id : Int)
    (constraints : List (Int × StudentConstraint))
    (adjacent_lr adjacent_9 : Int → List Int)
    (use_strict_non_adjacent : Bool)
    (seat_by_id : Int → Option Seat) : Option Bool :=
  let sc := dget constraints student_id
  match seat_by_id seat_id with
  | none => none
  | some seat =>
    if is_seat_allowed_for_student seat sc = false then some false
    else if (match sc with
             | none => true
             | some c =>
               mustBeOK assignments seat_id adjacent_lr c.must_be_adjacent_to
               && mustNotOK assignments seat_id
                   (if use_strict_non_adjacent then adjacent_9 else adjacent_lr)
                   c.must_not_adjacent_to) = false then some false
    else if reverseOK assignments student_id seat_id constraints
        adjacent_lr adjacent_9 use_strict_non_adjacent = false then some false
    else some true

/-- Loop 2a of the source with the defaultdict state threaded: each
`adjacent_lr[seat_id]` subscript goes through `ddGet` and may insert the
missing key; `return False` stops the loop. -/
def must_be_loop (assignments : List (Int × Int)) (seat_id : Int) :
    List Int → List (Int × List Int) → Bool × List (Int × List Int)
  | [], lr => (true, lr)
  | other :: rest, lr =>
    match dget assignments other with
    | none => must_be_loop assignments seat_id rest lr
    | some other_seat =>
      let s := ddGet lr seat_id
      if other_seat ∈ s.1 then must_be_loop assignments seat_id rest s.2
      else (false, s.2)

/-- Loop 2b of the source with both defaultdicts threaded: strict mode
subscripts `adjacent_9[seat_id]`, relaxed mode `adjacent_lr[seat_id]`. -/
def must_not_loop (assignments : List (Int × Int)) (seat_id : Int)
    (use_strict_non_adjacent : Bool) :
    List Int → List (Int × List Int) → List (Int × List Int) →
    Bool × List (Int × List Int) × List (Int × List Int)
  | [], lr, a9 => (true, lr, a9)
  | other :: rest, lr, a9 =>
    match dget assignments other with
    | none => must_not_loop assignments seat_id use_strict_non_adjacent rest lr a9
    | some other_seat =>
      if use_strict_non_adjacent then
        let s := ddGet a9 seat_id
        if other_seat ∈ s.1 then (false, lr, s.2)
        else must_not_loop assignments seat_id use_strict_non_adjacent rest lr s.2
      else
        let s := ddGet lr seat_id
        if other_seat ∈ s.1 then (false, s.2, a9)
        else must_not_loop assignments seat_id use_strict_non_adjacent rest s.2 a9

/-- One iteration of loop 3 of the source for the placed pair
`(other, other_seat)`: the "must be" reverse test (subscripting
`adjacent_lr[seat_id]`), then the "must not" reverse test (subscripting
`adjacent_9[other_seat]` or `adjacent_lr[other_seat]`). -/
def reverse_item (student_id seat_id other other_seat : Int)
    (constraints : List (Int × StudentConstraint))
    (use_strict_non_adjacent : Bool)
    (lr a9 : List (Int × List Int)) :
    Bool × List (Int × List Int) × List (Int × List Int) :=
  match dget constraints other with
  | none => (true, lr, a9)
  | some osc =>
    let step2 := fun (lr a9 : List (Int × List Int)) =>
      if student_id ∈ osc.must_not_adjacent_to then
        if use_strict_non_adjacent then
          let s := ddGet a9 other_seat
          if seat_id ∈ s.1 then (false, lr, s.2) else (true, lr, s.2)
        else
          let s := ddGet lr other_seat
          if seat_id ∈ s.1 then (false, s.2, a9) else (true, s.2, a9)
      else (true, lr, a9)
    if student_id ∈ osc.must_be_adjacent_to then
      let s := ddGet lr seat_id
      if other_seat ∉ s.1 then (false, s.2, a9)
      else step2 s.2 a9
    else step2 lr a9

/-- Loop 3 of the source with the defaultdict state threaded over the
placed `(other, other_seat)` pairs in dict (insertion) order. -/
def reverse_loop (student_id seat_id : Int)
    (constraints : List (Int × StudentConstraint))
    (use_strict_non_adjacent : Bool) :
    List (Int × Int) → List (Int × List Int) → List (Int × List Int) →
    Bool × List (Int × List Int) × List (Int × List Int)
  | [], lr, a9 => (true, lr, a9)
  | p :: rest, lr, a9 =>
    match reverse_item student_id seat_id p.1 p.2 constraints
        use_strict_non_adjacent lr a9 with
    | (false, lr', a9') => (false, lr', a9')
    | (true, lr', a9') =>
      reverse_loop student_id seat_id constraints use_strict_non_adjacent rest lr' a9'

/-- `check_partial_constraints` of the source with the two
`defaultdict(set)` adjacency maps as explicit state: returns the boolean
(`none` = `KeyError` on the session seat lookup) together with the
post-call `adjacent_lr` and `adjacent_9` association lists, whose key sets
may have grown by entries with empty sets. -/
def check_partial_constraintsD (assignments : List (Int × Int))
    (student_id seat_id : Int)
    (constraints : List (Int × StudentConstraint))
    (adjacent_lr adjacent_9 : List (Int × List Int))
    (use_strict_non_adjacent : Bool)
    (seat_by_id : Int → Option Seat) :
    Option Bool × List (Int × List Int) × List (Int × List Int) :=
  let sc := dget constraints student_id
  match seat_by_id seat_id with
  | none => (none, adjacent_lr, adjacent_9)
  | some seat =>
    if is_seat_allowed_for_student seat sc = false then
      (some false, adjacent_lr, adjacent_9)
    else
      let afterOwn :
          Bool × List (Int × List Int) × List (Int × List Int) :=
        match sc with
        | none => (true, adjacent_lr, adjacent_9)
        | some c =>
          match must_be_loop assignments seat_id c.must_be_adjacent_to adjacent_lr with
          | (false, lr') => (false, lr', adjacent_9)
          | (true, lr') =>
            must_not_loop assignments seat_id use_strict_non_adjacent
              c.must_not_adjacent_to lr' adjacent_9
      match afterOwn with
      | (false, lr', a9') => (some false, lr', a9')
      | (true, lr', a9') =>
        match reverse_loop student_id seat_id constraints
            use_strict_non_adjacent assignments lr' a9' with
        | (false, lr'', a9'') => (some false, lr'', a9'')
        | (true, lr'', a9'') => (some true, lr'', a9'')

/-- `constraint_score(sid)` inside `solve_one_assignment`.  The source tests
`if sc.allowed_rows:` — Python truthiness — so a present-but-EMPTY set adds
nothing; `+3` per entry of each relational set. -/
def constraint_score (constraints : List (Int × StudentConstraint)) (sid : Int) : Nat :=
  match dget constraints sid with
  | none => 0
  | some sc =>
    (if (match sc.allowed_rows with
         | some rs => decide (rs ≠ [])
         | none => false) then 2 else 0)
    + (if (match sc.allowed_cols with
           | some cs => decide (cs ≠ [])
           | none => false) then 2 else 0)
    + 3 * sc.must_be_adjacent_to.length
    + 3 * sc.must_not_adjacent_to.length

/-- `students_sorted = sorted(students, key=constraint_score, reverse=True)`:
a stable sort, descending by score (insertion sort is stable, as is
Python's sort; the claims do not depend on the tie order). -/
def students_sorted (constraints : List (Int × StudentConstraint))
    (students : List Int) : List Int :=
  students.insertionSort
    (fun a b => constraint_score constraints b ≤ constraint_score constraints a)

/-- The `candidate_seats` loop in `backtrack`: seats whose id is not among
the used values of the partial assignment and which pass the positional
filter, listed in `seats` order (this is the list `random.shuffle` then
permutes). -/
def candidate_seats (seats : List Seat) (assignments : List (Int × Int))
    (sc : Option StudentConstraint) : List Int :=
  (seats.filter fun seat =>
    decide (seat.id ∉ assignments.map Prod.snd)
      && is_seat_allowed_for_student seat sc).map Seat.id

/-- The `for seat_id in candidate_seats:` loop of `backtrack`: try each
candidate in (shuffled) order; on a checker pass, place tentatively
(`dset`), recurse through `recur`, and on failure of the recursion undo the
placement (`ddel` of the key just set) and continue.  Results:
`none` = a `KeyError` escaped; `some (none, g)` = every candidate failed
(the loop fell through, `backtrack` returns `False`);
`some (some a, g)` = the recursion completed a full assignment `a`. -/
def tryCands {R : Type} (checkFn : List (Int × Int) → Int → Option Bool)
    (recur : List (Int × Int) → R → Option (Option (List (Int × Int)) × R))
    (sid : Int) :
    List Int → List (Int × Int) → R → Option (Option (List (Int × Int)) × R)
  | [], _, g => some (none, g)
  | seat_id :: more, assignments, g =>
    match checkFn assignments seat_id with
    | none => none
    | some false => tryCands checkFn recur sid more assignments g
    | some true =>
      match recur (dset assignments sid seat_id) g with
      | none => none
      | some (some a, g') => some (some a, g')
      | some (none, g') =>
        tryCands checkFn recur sid more (ddel (dset assignments sid seat_id) sid) g'

/-- `backtrack(idx)` of `solve_one_assignment`, indexed by the remaining
suffix of `students_sorted`: compute the candidate seats of the next
student, shuffle them through the PRNG oracle, and run the candidate loop;
an empty remainder means all students are placed (`True`, with the full
assignment). -/
def backtrack {R : Type} (shuffle : R → List Int → List Int × R)
    (seat_by_id : Int → Option Seat) (seats : List Seat)
    (constraints : List (Int × StudentConstraint))
    (adjacent_lr adjacent_9 : Int → List Int)
    (use_strict_non_adjacent : Bool) :
    List Int → List (Int × Int) → R → Option (Option (List (Int × Int)) × R)
  | [], assignments, g => some (some assignments, g)
  | sid :: rest, assignments, g =>
    let sc := dget constraints sid
    let cands := candidate_seats seats assignments sc
    let sh := shuffle g cands
    tryCands
      (fun a seat_id => check_partial_constraints a sid seat_id constraints
        adjacent_lr adjacent_9 use_strict_non_adjacent seat_by_id)
      (backtrack shuffle seat_by_id seats constraints adjacent_lr adjacent_9
        use_strict_non_adjacent rest)
      sid sh.1 assignments sh.2

/-- `solve_one_assignment` of the source.  Returns `none` when a `KeyError`
escaped, `some (none, g)` when the search reported no solution (`None` in
Python), `some (some a, g)` when `backtrack(0)` succeeded with the full
assignment `a`; `g` is the post-call PRNG state. -/
def solve_one_assignment {R : Type} (shuffle : R → List Int → List Int × R)
    (seat_by_id : Int → Option Seat)
    (students : List Int) (seats : List Seat)
    (constraints : List (Int × StudentConstraint))
    (adjacent_lr adjacent_9 : Int → List Int)
    (use_strict_non_adjacent : Bool) (g : R) :
    Option (Option (List (Int × Int)) × R) :=
  backtrack shuffle seat_by_id seats constraints adjacent_lr adjacent_9
    use_strict_non_adjacent (students_sorted constraints students) [] g

/-- Lexicographic order on `(student id, seat id)` pairs: how Python
compares the tuples of `sorted(result.items())`. -/
def pairLe (p q : Int × Int) : Prop :=
  p.1 < q.1 ∨ (p.1 = q.1 ∧ p.2 ≤ q.2)

instance : DecidableRel pairLe := fun p q => by
  unfold pairLe; infer_instance

/-- `tuple(sorted(result.items()))`: the canonical form of an assignment
used for duplicate detection. -/
def canonical (a : List (Int × Int)) : List (Int × Int) :=
  a.insertionSort pairLe

/-- Result of the `generate_multiple_layouts` loop: the collected layouts,
the students list as the last `random.shuffle` left it (the source
shuffles the caller's list in place), the final value of the source's
`attempts` counter (one per solver invocation), and the PRNG state. -/
structure GenResult (R : Type) where
  layouts : List (List (Int × Int))
  students : List Int
  attempts : Nat
  g : R
deriving DecidableEq

/-- The `while len(layouts) < num_layouts and attempts < max_attempts:`
loop of `generate_multiple_layouts`; `fuel` is `max_attempts - attempts`,
so `fuel = 0` is an exhausted budget.  Each iteration increments
`attempts`, reshuffles the students list and invokes the solver once; a
`None` solver result or a duplicate canonical form adds nothing to
`layouts`/`seen`.  `none` = an escaped `KeyError`. -/
def gen_loop {R : Type} (shuffle : R → List Int → List Int × R)
    (seat_by_id : Int → Option Seat) (num_layouts : Nat) (seats : List Seat)
    (constraints : List (Int × StudentConstraint))
    (adjacent_lr adjacent_9 : Int → List Int)
    (use_strict_non_adjacent : Bool) :
    Nat → List Int → List (List (Int × Int)) → List (List (Int × Int)) →
    Nat → R → Option (GenResult R)
  | 0, students, layouts, _, attempts, g =>
    some ⟨layouts, students, attempts, g⟩
  | fuel + 1, students, layouts, seen, attempts, g =>
    if layouts.length < num_layouts then
      let sh := shuffle g students
      match solve_one_assignment shuffle seat_by_id sh.1 seats constraints
          adjacent_lr adjacent_9 use_strict_non_adjacent sh.2 with
      | none => none
      | some (none, g') =>
        gen_loop shuffle seat_by_id num_layouts seats constraints adjacent_lr
          adjacent_9 use_strict_non_adjacent fuel sh.1 layouts seen (attempts + 1) g'
      | some (some result, g') =>
        if canonical result ∈ seen then
          gen_loop shuffle seat_by_id num_layouts seats constraints adjacent_lr
            adjacent_9 use_strict_non_adjacent fuel sh.1 layouts seen (attempts + 1) g'
        else
          gen_loop shuffle seat_by_id num_layouts seats constraints adjacent_lr
            adjacent_9 use_strict_non_adjacent fuel sh.1 (layouts ++ [result])
            (seen ++ [canonical result]) (attempts + 1) g'
    else some ⟨layouts, students, attempts, g⟩

/-- `generate_multiple_layouts` of the source: attempt budget
`num_layouts * 30`, starting from no layouts, an empty `seen` set and
`attempts = 0`. -/
def generate_multiple_layouts {R : Type} (shuffle : R → List Int → List Int × R)
    (seat_by_id : Int → Option Seat)
    (num_layouts : Nat) (students : List Int) (seats : List Seat)
    (constraints : List (Int × StudentConstraint))
    (adjacent_lr adjacent_9 : Int → List Int)
    (use_strict_non_adjacent : Bool) (g : R) : Option (GenResult R) :=
  gen_loop shuffle seat_by_id num_layouts seats constraints adjacent_lr
    adjacent_9 use_strict_non_adjacent (num_layouts * 30) students [] [] 0 g

/-! ## Dictionary lemmas -/

theorem dget_append_of_ne {V : Type} (d : List (Int × V)) (k k' : Int) (v : V)
    (h : k ≠ k') : dget (d ++ [(k, v)]) k' = dget d k' := by
  induction d with
  | nil => simp [dget, h]
  | cons p rest ih =>
    by_cases hp : p.1 = k'
    · simp [dget, hp]
    · simpa [dget, hp] using ih

theorem dget_append_self {V : Type} (d : List (Int × V)) (k : Int) (v : V)
    (h : dget d k = none) : dget (d ++ [(k, v)]) k = some v := by
  induction d with
  | nil => simp [dget]
  | cons p rest ih =>
    by_cases hp : p.1 = k
    · simp [dget, hp] at h
    · simp only [dget, hp] at h
      simpa [dget, hp] using ih h

theorem dget_map_setAdd (d : List (Int × List Int)) (k v k' : Int) :
    dget (d.map (fun p => if p.1 = k then (p.1, setAdd p.2 v) else p)) k' =
      if k' = k then (dget d k').map (fun s => setAdd s v) else dget d k' := by
  induction d with
  | nil => by_cases hk : k' = k <;> simp [dget, hk]
  | cons p rest ih =>
    obtain ⟨a, b⟩ := p
    simp only [List.map_cons]
    by_cases ha : a = k
    · rw [if_pos ha]
      by_cases hk : k' = k
      · have hak' : a = k' := by rw [ha, hk]
        simp [dget, hak', hk]
      · have hak' : ¬ a = k' := by rw [ha]; exact fun hh => hk hh.symm
        simp [dget, hak', hk, ih]
    · rw [if_neg ha]
      by_cases hak' : a = k'
      · have hk : ¬ k' = k := fun hh => ha (hak'.trans hh)
        simp [dget, hak', hk]
      · simp [dget, hak', ih]

theorem dview_ddAdd_mem (d : List (Int × List Int)) (k v k' x : Int) :
    x ∈ dview (ddAdd d k v) k' ↔ x ∈ dview d k' ∨ (k' = k ∧ x = v) := by
  unfold ddAdd
  by_cases h : (dget d k).isSome
  · rw [if_pos h]
    unfold dview
    rw [dget_map_setAdd]
    by_cases hk : k' = k
    · subst hk
      rcases Option.isSome_iff_exists.mp h with ⟨s, hs⟩
      rw [hs]
      simp only [eq_self_iff_true, if_true, Option.map_some', Option.getD_some,
        setAdd, true_and]
      by_cases hv : v ∈ s
      · rw [if_pos hv]
        constructor
        · exact fun hx => Or.inl hx
        · rintro (hx | rfl)
          · exact hx
          · exact hv
      · rw [if_neg hv]
        rw [List.mem_append, List.mem_singleton]
    · rw [if_neg hk]
      simp [hk]
  · rw [if_neg h]
    have hnone : dget d k = none := Option.not_isSome_iff_eq_none.mp h
    unfold dview
    by_cases hk : k' = k
    · subst hk
      rw [dget_append_self d k' [v] hnone, hnone]
      simp
    · rw [dget_append_of_ne d k k' [v] (fun hh => hk hh.symm)]
      simp [hk]

/-- First-match lookup of a present key: with duplicate-free keys, every
entry of the association list is found by `dget`. -/
theorem dget_of_mem {V : Type} (d : List (Int × V)) (p : Int × V)
    (hnd : (d.map Prod.fst).Nodup) (hp : p ∈ d) : dget d p.1 = some p.2 := by
  induction d with
  | nil => cases hp
  | cons q rest ih =>
    rcases List.mem_cons.mp hp with rfl | hmem
    · simp [dget]
    · have hq : q.1 ≠ p.1 := by
        intro hh
        have : p.1 ∈ rest.map Prod.fst := List.mem_map_of_mem Prod.fst hmem
        rw [← hh] at this
        exact (List.nodup_cons.mp hnd).1 this
      have := ih (List.nodup_cons.mp hnd).2 hmem
      simpa [dget, hq]

theorem dget_eq_none_of_not_mem {V : Type} (d : List (Int × V)) (k : Int)
    (h : k ∉ d.map Prod.fst) : dget d k = none := by
  induction d with
  | nil => rfl
  | cons q rest ih =>
    simp only [List.map_cons, List.mem_cons, not_or] at h
    have : q.1 ≠ k := fun hh => h.1 hh.symm
    simpa [dget, this] using ih h.2

/-- `d[k] = v` on a fresh key appends the entry. -/
theorem dset_of_not_mem {V : Type} (d : List (Int × V)) (k : Int) (v : V)
    (h : k ∉ d.map Prod.fst) : dset d k v = d ++ [(k, v)] := by
  simp [dset, dget_eq_none_of_not_mem d k h]

/-- `del d[k]` right after `d[k] = v` on a fresh key restores the dict. -/
theorem ddel_dset_of_not_mem {V : Type} (d : List (Int × V)) (k : Int) (v : V)
    (h : k ∉ d.map Prod.fst) : ddel (dset d k v) k = d := by
  rw [dset_of_not_mem d k v h]
  unfold ddel
  rw [List.filter_append]
  have h1 : d.filter (fun p => decide (p.1 ≠ k)) = d := by
    refine List.filter_eq_self.mpr ?_
    rintro ⟨a, b⟩ hab
    simp only [decide_eq_true_eq]
    intro hh
    exact h (hh ▸ List.mem_map_of_mem Prod.fst hab)
  have h2 : List.filter (fun p => decide (p.1 ≠ k)) [(k, v)] = [] := by simp
  rw [h1, h2, List.append_nil]

/-! ## Adjacency-map characterization -/

/-- The spec's `adjacentLR` relation, read from the sentence "add to
`adjacentLR` if row-distance is 0 and column-distance is 1" over ordered
pairs of distinct seats: used to compare the built map against the spec. -/
def specAdjacentLR (seats : List Seat) (x y : Int) : Prop :=
  ∃ s1 ∈ seats, ∃ s2 ∈ seats, x = s1.id ∧ y = s2.id ∧ s1.id ≠ s2.id ∧
    (s1.row - s2.row).natAbs = 0 ∧ (s1.col - s2.col).natAbs = 1

/-- The spec's `adjacentBox` relation (8-neighbourhood): distinct seats with
both absolute distances at most 1. -/
def specAdjacentBox (seats : List Seat) (x y : Int) : Prop :=
  ∃ s1 ∈ seats, ∃ s2 ∈ seats, x = s1.id ∧ y = s2.id ∧ s1.id ≠ s2.id ∧
    (s1.row - s2.row).natAbs ≤ 1 ∧ (s1.col - s2.col).natAbs ≤ 1

theorem mem_dview_adjStep_fst (s1 s2 : Seat)
    (acc : List (Int × List Int) × List (Int × List Int)) (k y : Int) :
    y ∈ dview (adjStep s1 acc s2).1 k ↔
      y ∈ dview acc.1 k ∨ (k = s1.id ∧ y = s2.id ∧ s1.id ≠ s2.id ∧
        (s1.row - s2.row).natAbs = 0 ∧ (s1.col - s2.col).natAbs = 1) := by
  unfold adjStep
  by_cases hid : s1.id = s2.id
  · simp [hid]
  · rw [if_neg hid]
    by_cases hc : (s1.row - s2.row).natAbs = 0 ∧ (s1.col - s2.col).natAbs = 1
    · simp only
      rw [if_pos hc, dview_ddAdd_mem]
      constructor
      · rintro (h | ⟨rfl, rfl⟩)
        · exact Or.inl h
        · exact Or.inr ⟨rfl, rfl, hid, hc⟩
      · rintro (h | ⟨rfl, rfl, -, -⟩)
        · exact Or.inl h
        · exact Or.inr ⟨rfl, rfl⟩
    · simp only
      rw [if_neg hc]
      constructor
      · exact Or.inl
      · rintro (h | ⟨-, -, -, h1, h2⟩)
        · exact h
        · exact absurd ⟨h1, h2⟩ hc

theorem mem_dview_adjStep_snd (s1 s2 : Seat)
    (acc : List (Int × List Int) × List (Int × List Int)) (k y : Int) :
    y ∈ dview (adjStep s1 acc s2).2 k ↔
      y ∈ dview acc.2 k ∨ (k = s1.id ∧ y = s2.id ∧ s1.id ≠ s2.id ∧
        (s1.row - s2.row).natAbs ≤ 1 ∧ (s1.col - s2.col).natAbs ≤ 1) := by
  unfold adjStep
  by_cases hid : s1.id = s2.id
  · simp [hid]
  · rw [if_neg hid]
    by_cases hc : (s1.row - s2.row).natAbs ≤ 1 ∧ (s1.col - s2.col).natAbs ≤ 1
    · simp only
      rw [if_pos hc, dview_ddAdd_mem]
      constructor
      · rintro (h | ⟨rfl, rfl⟩)
        · exact Or.inl h
        · exact Or.inr ⟨rfl, rfl, hid, hc⟩
      · rintro (h | ⟨rfl, rfl, -, -⟩)
        · exact Or.inl h
        · exact Or.inr ⟨rfl, rfl⟩
    · simp only
      rw [if_neg hc]
      constructor
      · exact Or.inl
      · rintro (h | ⟨-, -, -, h1, h2⟩)
        · exact h
        · exact absurd ⟨h1, h2⟩ hc

theorem mem_dview_inner_fold_fst (s1 : Seat) (l : List Seat) :
    ∀ (acc : List (Int × List Int) × List (Int × List Int)) (k y : Int),
      y ∈ dview (l.foldl (adjStep s1) acc).1 k ↔
        y ∈ dview acc.1 k ∨ ∃ s2 ∈ l, k = s1.id ∧ y = s2.id ∧ s1.id ≠ s2.id ∧
          (s1.row - s2.row).natAbs = 0 ∧ (s1.col - s2.col).natAbs = 1 := by
  induction l with
  | nil => simp
  | cons s2 rest ih =>
    intro acc k y
    simp only [List.foldl_cons]
    rw [ih, mem_dview_adjStep_fst]
    simp only [List.mem_cons]
    constructor
    · rintro ((h | h) | ⟨s, hs, hrest⟩)
      · exact Or.inl h
      · exact Or.inr ⟨s2, Or.inl rfl, h⟩
      · exact Or.inr ⟨s, Or.inr hs, hrest⟩
    · rintro (h | ⟨s, (rfl | hs), hrest⟩)
      · exact Or.inl (Or.inl h)
      · exact Or.inl (Or.inr hrest)
      · exact Or.inr ⟨s, hs, hrest⟩

theorem mem_dview_inner_fold_snd (s1 : Seat) (l : List Seat) :
    ∀ (acc : List (Int × List Int) × List (Int × List Int)) (k y : Int),
      y ∈ dview (l.foldl (adjStep s1) acc).2 k ↔
        y ∈ dview acc.2 k ∨ ∃ s2 ∈ l, k = s1.id ∧ y = s2.id ∧ s1.id ≠ s2.id ∧
          (s1.row - s2.row).natAbs ≤ 1 ∧ (s1.col - s2.col).natAbs ≤ 1 := by
  induction l with
  | nil => simp
  | cons s2 rest ih =>
    intro acc k y
    simp only [List.foldl_cons]
    rw [ih, mem_dview_adjStep_snd]
    simp only [List.mem_cons]
    constructor
    · rintro ((h | h) | ⟨s, hs, hrest⟩)
      · exact Or.inl h
      · exact Or.inr ⟨s2, Or.inl rfl, h⟩
      · exact Or.inr ⟨s, Or.inr hs, hrest⟩
    · rintro (h | ⟨s, (rfl | hs), hrest⟩)
      · exact Or.inl (Or.inl h)
      · exact Or.inl (Or.inr hrest)
      · exact Or.inr ⟨s, hs, hrest⟩

theorem mem_dview_build_fst (seats : List Seat) (x y : Int) :
    y ∈ dview (build_adjacency_maps seats).1 x ↔ specAdjacentLR seats x y := by
  unfold build_adjacency_maps specAdjacentLR
  have key : ∀ (outer : List Seat) (acc : List (Int × List Int) × List (Int × List Int)),
      y ∈ dview ((outer.foldl (fun acc s1 => seats.foldl (adjStep s1) acc) acc).1) x ↔
        y ∈ dview acc.1 x ∨ ∃ s1 ∈ outer, ∃ s2 ∈ seats, x = s1.id ∧ y = s2.id ∧
          s1.id ≠ s2.id ∧ (s1.row - s2.row).natAbs = 0 ∧ (s1.col - s2.col).natAbs = 1 := by
    intro outer
    induction outer with
    | nil => simp
    | cons s1 rest ih =>
      intro acc
      simp only [List.foldl_cons]
      rw [ih, mem_dview_inner_fold_fst]
      simp only [List.mem_cons]
      constructor
      · rintro ((h | ⟨s2, hs2, hrest⟩) | ⟨s, hs, htail⟩)
        · exact Or.inl h
        · exact Or.inr ⟨s1, Or.inl rfl, s2, hs2, hrest⟩
        · exact Or.inr ⟨s, Or.inr hs, htail⟩
      · rintro (h | ⟨s, (rfl | hs), htail⟩)
        · exact Or.inl (Or.inl h)
        · exact Or.inl (Or.inr htail)
        · exact Or.inr ⟨s, hs, htail⟩
  rw [key]
  simp [dview, dget]

theorem mem_dview_build_snd (seats : List Seat) (x y : Int) :
    y ∈ dview (build_adjacency_maps seats).2 x ↔ specAdjacentBox seats x y := by
  unfold build_adjacency_maps specAdjacentBox
  have key : ∀ (outer : List Seat) (acc : List (Int × List Int) × List (Int × List Int)),
      y ∈ dview ((outer.foldl (fun acc s1 => seats.foldl (adjStep s1) acc) acc).2) x ↔
        y ∈ dview acc.2 x ∨ ∃ s1 ∈ outer, ∃ s2 ∈ seats, x = s1.id ∧ y = s2.id ∧
          s1.id ≠ s2.id ∧ (s1.row - s2.row).natAbs ≤ 1 ∧ (s1.col - s2.col).natAbs ≤ 1 := by
    intro outer
    induction outer with
    | nil => simp
    | cons s1 rest ih =>
      intro acc
      simp only [List.foldl_cons]
      rw [ih, mem_dview_inner_fold_snd]
      simp only [List.mem_cons]
      constructor
      · rintro ((h | ⟨s2, hs2, hrest⟩) | ⟨s, hs, htail⟩)
        · exact Or.inl h
        · exact Or.inr ⟨s1, Or.inl rfl, s2, hs2, hrest⟩
        · exact Or.inr ⟨s, Or.inr hs, htail⟩
      · rintro (h | ⟨s, (rfl | hs), htail⟩)
        · exact Or.inl (Or.inl h)
        · exact Or.inl (Or.inr htail)
        · exact Or.inr ⟨s, hs, htail⟩
  rw [key]
  simp [dview, dget]

theorem specAdjacentLR_symm (seats : List Seat) (x y : Int) :
    specAdjacentLR seats x y → specAdjacentLR seats y x := by
  rintro ⟨s1, h1, s2, h2, rfl, rfl, hne, hr, hc⟩
  exact ⟨s2, h2, s1, h1, rfl, rfl, fun hh => hne hh.symm,
    by rw [← neg_sub, Int.natAbs_neg]; exact hr,
    by rw [← neg_sub, Int.natAbs_neg]; exact hc⟩

theorem specAdjacentBox_symm (seats : List Seat) (x y : Int) :
    specAdjacentBox seats x y → specAdjacentBox seats y x := by
  rintro ⟨s1, h1, s2, h2, rfl, rfl, hne, hr, hc⟩
  exact ⟨s2, h2, s1, h1, rfl, rfl, fun hh => hne hh.symm,
    by rw [← neg_sub, Int.natAbs_neg]; exact hr,
    by rw [← neg_sub, Int.natAbs_neg]; exact hc⟩

theorem specAdjacentLR_irrefl (seats : List Seat) (x : Int) :
    ¬ specAdjacentLR seats x x := by
  rintro ⟨s1, -, s2, -, rfl, heq, hne, -, -⟩
  exact hne heq

theorem specAdjacentBox_irrefl (seats : List Seat) (x : Int) :
    ¬ specAdjacentBox seats x x := by
  rintro ⟨s1, -, s2, -, rfl, heq, hne, -, -⟩
  exact hne heq

/-- C5: for every list of seats, `build_adjacency_maps` puts `y` in
`adjacentLR[x]` exactly when some seats with ids `x` and `y` are distinct
(by id) with absolute row distance 0 and absolute column distance 1, and
puts `y` in `adjacentBox[x]` (`adjacent_9`) exactly when both absolute
distances are at most 1. -/
theorem adjacency_maps_match_spec (seats : List Seat) (x y : Int) :
    (y ∈ dview (build_adjacency_maps seats).1 x ↔ specAdjacentLR seats x y) ∧
    (y ∈ dview (build_adjacency_maps seats).2 x ↔ specAdjacentBox seats x y) :=
  ⟨mem_dview_build_fst seats x y, mem_dview_build_snd seats x y⟩

/-- C6: both relations produced by `build_adjacency_maps` are symmetric and
irreflexive (for every layout, with no uniqueness assumption needed):
`y ∈ adjacentLR[x] ↔ x ∈ adjacentLR[y]` and `x ∉ adjacentLR[x]`, and the
same two statements for `adjacentBox` (`adjacent_9`). -/
theorem adjacency_maps_symmetric_irreflexive (seats : List Seat) (x y : Int) :
    (y ∈ dview (build_adjacency_maps seats).1 x ↔
      x ∈ dview (build_adjacency_maps seats).1 y) ∧
    x ∉ dview (build_adjacency_maps seats).1 x ∧
    (y ∈ dview (build_adjacency_maps seats).2 x ↔
      x ∈ dview (build_adjacency_maps seats).2 y) ∧
    x ∉ dview (build_adjacency_maps seats).2 x := by
  refine ⟨?_, ?_, ?_, ?_⟩
  · rw [mem_dview_build_fst, mem_dview_build_fst]
    exact ⟨specAdjacentLR_symm seats x y, specAdjacentLR_symm seats y x⟩
  · rw [mem_dview_build_fst]
    exact specAdjacentLR_irrefl seats x
  · rw [mem_dview_build_snd, mem_dview_build_snd]
    exact ⟨specAdjacentBox_symm seats x y, specAdjacentBox_symm seats y x⟩
  · rw [mem_dview_build_snd]
    exact specAdjacentBox_irrefl seats x

/-! ## Student ordering (constraint-weight heuristic) -/

/-- The score the spec's words give: +2 if `allowed_rows` is PRESENT, +2 if
`allowed_cols` is present, +3 per relational entry — with no truthiness
exception for a present-but-empty set.  Used to compare the claim against
the implemented `constraint_score`. -/
def spec_constraint_score (constraints : List (Int × StudentConstraint))
    (sid : Int) : Nat :=
  match dget constraints sid with
  | none => 0
  | some sc =>
    (if sc.allowed_rows.isSome then 2 else 0)
    + (if sc.allowed_cols.isSome then 2 else 0)
    + 3 * sc.must_be_adjacent_to.length
    + 3 * sc.must_not_adjacent_to.length

theorem students_sorted_perm (constraints : List (Int × StudentConstraint))
    (students : List Int) : List.Perm (students_sorted constraints students) students :=
  List.perm_insertionSort _ students

theorem students_sorted_pairwise (constraints : List (Int × StudentConstraint))
    (students : List Int) :
    (students_sorted constraints students).Pairwise
      (fun a b => constraint_score constraints b ≤ constraint_score constraints a) := by
  haveI ht : IsTotal Int
      (fun a b => constraint_score constraints b ≤ constraint_score constraints a) :=
    ⟨fun a b => Nat.le_total (constraint_score constraints b) (constraint_score constraints a)⟩
  haveI htr : IsTrans Int
      (fun a b => constraint_score constraints b ≤ constraint_score constraints a) :=
    ⟨fun _ _ _ hab hbc => Nat.le_trans hbc hab⟩
  exact List.sorted_insertionSort _ students

/-- C7 (amended): descending order by the implemented score: among students
with DIFFERENT `constraint_score` (the Python-truthiness score: +2 only for
a present AND non-empty allowed set), the strictly higher-scored one comes
earlier in `students_sorted`, hence is tried first by the solver. -/
theorem students_sorted_by_score_desc
    (constraints : List (Int × StudentConstraint)) (students : List Int)
    (a b : Int) (hnd : students.Nodup) (ha : a ∈ students) (hb : b ∈ students)
    (hgt : constraint_score constraints b < constraint_score constraints a) :
    (students_sorted constraints students).indexOf a <
      (students_sorted constraints students).indexOf b := by
  set S := students_sorted constraints students with hS
  have hperm : List.Perm S students := students_sorted_perm constraints students
  have hndS : S.Nodup := hperm.nodup_iff.mpr hnd
  have haS : a ∈ S := hperm.mem_iff.mpr ha
  have hbS : b ∈ S := hperm.mem_iff.mpr hb
  have hia : S.indexOf a < S.length := List.indexOf_lt_length.mpr haS
  have hib : S.indexOf b < S.length := List.indexOf_lt_length.mpr hbS
  have hpw := students_sorted_pairwise constraints students
  rw [List.pairwise_iff_get] at hpw
  by_contra hle
  push_neg at hle
  rcases Nat.lt_or_ge (S.indexOf b) (S.indexOf a) with hlt | hge
  · have := hpw ⟨S.indexOf b, hib⟩ ⟨S.indexOf a, hia⟩ hlt
    rw [List.indexOf_get hia, List.indexOf_get hib] at this
    exact absurd hgt (Nat.not_lt.mpr this)
  · have heq : S.indexOf a = S.indexOf b := Nat.le_antisymm hge hle
    have : a = b := (List.indexOf_inj haS hbS).mp heq
    subst this
    exact Nat.lt_irrefl _ hgt

/-- Witness for the amended C7 at a concrete input: student 2 (score 2)
is listed before student 1 (score 0). -/
theorem students_sorted_by_score_desc_witness :
    (students_sorted [((1 : Int), ⟨1, some [], some [], [], []⟩),
        ((2 : Int), ⟨2, some [1], none, [], []⟩)] [1, 2]).indexOf 2 <
      (students_sorted [((1 : Int), ⟨1, some [], some [], [], []⟩),
        ((2 : Int), ⟨2, some [1], none, [], []⟩)] [1, 2]).indexOf 1 :=
  students_sorted_by_score_desc _ [1, 2] 2 1 (by decide) (by decide) (by decide)
    (by decide)

/-- Counterexample to C7 as stated: with the spec's "+2 if present" score
(`spec_constraint_score`), student 1 scores 4 and student 2 scores 2, yet
the solver's order tries student 2 FIRST, because the code's Python
truthiness gives a present-but-empty allowed set no weight. -/
theorem constraint_score_presence_counterexample :
    spec_constraint_score [((1 : Int), ⟨1, some [], some [], [], []⟩),
        ((2 : Int), ⟨2, some [1], none, [], []⟩)] 2 <
      spec_constraint_score [((1 : Int), ⟨1, some [], some [], [], []⟩),
        ((2 : Int), ⟨2, some [1], none, [], []⟩)] 1 ∧
    (students_sorted [((1 : Int), ⟨1, some [], some [], [], []⟩),
        ((2 : Int), ⟨2, some [1], none, [], []⟩)] [1, 2]).indexOf 2 <
      (students_sorted [((1 : Int), ⟨1, some [], some [], [], []⟩),
        ((2 : Int), ⟨2, some [1], none, [], []⟩)] [1, 2]).indexOf 1 := by
  decide
theorem ddGet_fst (d : List (Int × List Int)) (k : Int) :
    (ddGet d k).1 = dview d k := by
  unfold ddGet dview
  cases h : dget d k <;> simp [h]

theorem ddGet_view (d : List (Int × List Int)) (k : Int) :
    dview (ddGet d k).2 = dview d := by
  funext k'
  unfold ddGet
  cases h : dget d k with
  | some v => rfl
  | none =>
    unfold dview
    by_cases hk : k' = k
    · subst hk
      rw [dget_append_self d k' [] h, h]
      rfl
    · rw [dget_append_of_ne d k k' [] (fun hh => hk hh.symm)]

theorem mustBeOK_congr (assignments : List (Int × Int)) (seat_id : Int)
    (f g : Int → List Int) (h : f seat_id = g seat_id) (others : List Int) :
    mustBeOK assignments seat_id f others = mustBeOK assignments seat_id g others := by
  simp only [mustBeOK, h]

theorem mustNotOK_congr (assignments : List (Int × Int)) (seat_id : Int)
    (f g : Int → List Int) (h : f seat_id = g seat_id) (others : List Int) :
    mustNotOK assignments seat_id f others = mustNotOK assignments seat_id g others := by
  simp only [mustNotOK, h]

theorem must_be_loop_spec (assignments : List (Int × Int)) (seat_id : Int) :
    ∀ (others : List Int) (lr : List (Int × List Int)),
      (must_be_loop assignments seat_id others lr).1 =
        mustBeOK assignments seat_id (dview lr) others ∧
      dview (must_be_loop assignments seat_id others lr).2 = dview lr := by
  intro others
  induction others with
  | nil => intro lr; simp [must_be_loop, mustBeOK]
  | cons other rest ih =>
    intro lr
    unfold must_be_loop
    cases hget : dget assignments other with
    | none =>
      dsimp only
      rcases ih lr with ⟨h1, h2⟩
      refine ⟨?_, h2⟩
      rw [h1]
      simp [mustBeOK, hget]
    | some other_seat =>
      dsimp only
      rw [ddGet_fst]
      by_cases hmem : other_seat ∈ dview lr seat_id
      · rw [if_pos hmem]
        rcases ih (ddGet lr seat_id).2 with ⟨h1, h2⟩
        have hv := ddGet_view lr seat_id
        refine ⟨?_, by rw [h2, hv]⟩
        rw [h1, mustBeOK_congr assignments seat_id _ _ (congrFun hv seat_id) rest]
        simp [mustBeOK, hget, hmem]
      · rw [if_neg hmem]
        refine ⟨?_, ddGet_view lr seat_id⟩
        simp [mustBeOK, hget, hmem]
theorem ite_cond_true {A : Type} (a b : A) : (if (true = true) then a else b) = a :=
  if_pos rfl

theorem ite_cond_false {A : Type} (a b : A) : (if (false = true) then a else b) = b :=
  if_neg Bool.false_ne_true

theorem must_not_loop_spec (assignments : List (Int × Int)) (seat_id : Int)
    (strict : Bool) :
    ∀ (others : List Int) (lr a9 : List (Int × List Int)),
      (must_not_loop assignments seat_id strict others lr a9).1 =
        mustNotOK assignments seat_id
          (if strict then dview a9 else dview lr) others ∧
      dview (must_not_loop assignments seat_id strict others lr a9).2.1 = dview lr ∧
      dview (must_not_loop assignments seat_id strict others lr a9).2.2 = dview a9 := by
  cases strict with
  | true =>
    intro others
    induction others with
    | nil => intro lr a9; simp [must_not_loop, mustNotOK]
    | cons other rest ih =>
      intro lr a9
      unfold must_not_loop
      cases hget : dget assignments other with
      | none =>
        dsimp only
        simp only [ite_cond_true, if_true]
        rcases ih lr a9 with ⟨h1, h2, h3⟩
        refine ⟨?_, h2, h3⟩
        rw [h1]
        simp only [ite_cond_true, if_true]
        simp [mustNotOK, hget]
      | some other_seat =>
        dsimp only
        simp only [ite_cond_true, if_true]
        rw [ddGet_fst]
        by_cases hmem : other_seat ∈ dview a9 seat_id
        · rw [if_pos hmem]
          refine ⟨?_, rfl, ddGet_view a9 seat_id⟩
          simp [mustNotOK, hget, hmem]
        · rw [if_neg hmem]
          rcases ih lr (ddGet a9 seat_id).2 with ⟨h1, h2, h3⟩
          simp only [ite_cond_true, if_true] at h1
          have hv := ddGet_view a9 seat_id
          refine ⟨?_, h2, by rw [h3, hv]⟩
          rw [h1]
          have hcongr := mustNotOK_congr assignments seat_id
            (dview (ddGet a9 seat_id).2) (dview a9) (congrFun hv seat_id) rest
          simp only [ite_cond_true, if_true] at hcongr ⊢
          rw [hcongr]
          simp [mustNotOK, hget, hmem]
  | false =>
    intro others
    induction others with
    | nil => intro lr a9; simp [must_not_loop, mustNotOK]
    | cons other rest ih =>
      intro lr a9
      unfold must_not_loop
      cases hget : dget assignments other with
      | none =>
        dsimp only
        simp only [ite_cond_false, if_false]
        rcases ih lr a9 with ⟨h1, h2, h3⟩
        refine ⟨?_, h2, h3⟩
        rw [h1]
        simp only [ite_cond_false, if_false]
        simp [mustNotOK, hget]
      | some other_seat =>
        dsimp only
        simp only [ite_cond_false, if_false]
        rw [ddGet_fst]
        by_cases hmem : other_seat ∈ dview lr seat_id
        · rw [if_pos hmem]
          refine ⟨?_, ddGet_view lr seat_id, rfl⟩
          simp [mustNotOK, hget, hmem]
        · rw [if_neg hmem]
          rcases ih (ddGet lr seat_id).2 a9 with ⟨h1, h2, h3⟩
          simp only [ite_cond_false, if_false] at h1
          have hv := ddGet_view lr seat_id
          refine ⟨?_, by rw [h2, hv], h3⟩
          rw [h1]
          have hcongr := mustNotOK_congr assignments seat_id
            (dview (ddGet lr seat_id).2) (dview lr) (congrFun hv seat_id) rest
          simp only [ite_cond_false, if_false] at hcongr ⊢
          rw [hcongr]
          simp [mustNotOK, hget, hmem]
theorem reverse_item_spec (student_id seat_id other other_seat : Int)
    (constraints : List (Int × StudentConstraint)) (strict : Bool)
    (lr a9 : List (Int × List Int)) :
    (reverse_item student_id seat_id other other_seat constraints strict lr a9).1 =
      (match dget constraints other with
       | none => true
       | some osc =>
         (if student_id ∈ osc.must_be_adjacent_to
          then decide (other_seat ∈ dview lr seat_id) else true)
         && (if student_id ∈ osc.must_not_adjacent_to
             then (if strict then decide (seat_id ∉ dview a9 other_seat)
                   else decide (seat_id ∉ dview lr other_seat))
             else true)) ∧
    dview (reverse_item student_id seat_id other other_seat constraints
      strict lr a9).2.1 = dview lr ∧
    dview (reverse_item student_id seat_id other other_seat constraints
      strict lr a9).2.2 = dview a9 := by
  unfold reverse_item
  cases hoc : dget constraints other with
  | none => exact ⟨rfl, rfl, rfl⟩
  | some osc =>
    dsimp only
    by_cases hmb : student_id ∈ osc.must_be_adjacent_to
    · rw [if_pos hmb, if_pos hmb, ddGet_fst]
      by_cases hmem : other_seat ∈ dview lr seat_id
      · rw [if_neg (by simpa using hmem)]
        have hvlr := ddGet_view lr seat_id
        by_cases hmn : student_id ∈ osc.must_not_adjacent_to
        · rw [if_pos hmn, if_pos hmn]
          cases strict with
          | true =>
            simp only [ite_cond_true, if_true, ddGet_fst, hvlr]
            by_cases h9 : seat_id ∈ dview a9 other_seat
            · rw [if_pos h9]
              have := ddGet_view a9 other_seat
              simp [hmem, h9, this, hvlr]
            · rw [if_neg h9]
              have := ddGet_view a9 other_seat
              simp [hmem, h9, this, hvlr]
          | false =>
            simp only [ite_cond_false, if_false, ddGet_fst, hvlr]
            by_cases hlr2 : seat_id ∈ dview lr other_seat
            · rw [if_pos hlr2]
              have := ddGet_view (ddGet lr seat_id).2 other_seat
              simp [hmem, hlr2, this, hvlr]
            · rw [if_neg hlr2]
              have := ddGet_view (ddGet lr seat_id).2 other_seat
              simp [hmem, hlr2, this, hvlr]
        · rw [if_neg hmn, if_neg hmn]
          simp [hmem, hvlr]
      · rw [if_pos (by simpa using hmem)]
        have hvlr := ddGet_view lr seat_id
        simp [hmem, hvlr]
    · rw [if_neg hmb, if_neg hmb]
      by_cases hmn : student_id ∈ osc.must_not_adjacent_to
      · rw [if_pos hmn, if_pos hmn]
        cases strict with
        | true =>
          simp only [ite_cond_true, if_true, ddGet_fst]
          by_cases h9 : seat_id ∈ dview a9 other_seat
          · rw [if_pos h9]
            have := ddGet_view a9 other_seat
            simp [h9, this]
          · rw [if_neg h9]
            have := ddGet_view a9 other_seat
            simp [h9, this]
        | false =>
          simp only [ite_cond_false, if_false, ddGet_fst]
          by_cases hlr2 : seat_id ∈ dview lr other_seat
          · rw [if_pos hlr2]
            have := ddGet_view lr other_seat
            simp [hlr2, this]
          · rw [if_neg hlr2]
            have := ddGet_view lr other_seat
            simp [hlr2, this]
      · rw [if_neg hmn, if_neg hmn]
        exact ⟨rfl, rfl, rfl⟩
theorem reverse_loop_spec (student_id seat_id : Int)
    (constraints : List (Int × StudentConstraint)) (strict : Bool) :
    ∀ (items : List (Int × Int)) (lr a9 : List (Int × List Int)),
      (reverse_loop student_id seat_id constraints strict items lr a9).1 =
        reverseOK items student_id seat_id constraints (dview lr) (dview a9) strict ∧
      dview (reverse_loop student_id seat_id constraints strict items lr a9).2.1 =
        dview lr ∧
      dview (reverse_loop student_id seat_id constraints strict items lr a9).2.2 =
        dview a9 := by
  intro items
  induction items with
  | nil => intro lr a9; simp [reverse_loop, reverseOK]
  | cons p rest ih =>
    intro lr a9
    unfold reverse_loop
    rcases hitem : reverse_item student_id seat_id p.1 p.2 constraints strict lr a9
      with ⟨b, lr2, a92⟩
    obtain ⟨hb, hv1, hv2⟩ := reverse_item_spec student_id seat_id p.1 p.2
      constraints strict lr a9
    rw [hitem] at hb hv1 hv2
    dsimp only at hb hv1 hv2
    cases b with
    | false =>
      dsimp only
      refine ⟨?_, hv1, hv2⟩
      rw [reverseOK, List.all_cons]
      rw [← hb]
      simp
    | true =>
      dsimp only
      obtain ⟨ihb, ihv1, ihv2⟩ := ih lr2 a92
      refine ⟨?_, by rw [ihv1, hv1], by rw [ihv2, hv2]⟩
      rw [ihb, hv1, hv2]
      rw [reverseOK, reverseOK, List.all_cons]
      rw [← hb]
      simp
/-- C8 (amended): the stateful checker returns exactly the boolean of the
pure checker on the value views of the two adjacency maps, and it never
changes those value views (a missing key still reads as the empty set) —
but its post-call association lists themselves may differ from the inputs
(key sets can grow; see the counterexample). -/
theorem check_partial_constraintsD_spec (assignments : List (Int × Int))
    (student_id seat_id : Int) (constraints : List (Int × StudentConstraint))
    (adjacent_lr adjacent_9 : List (Int × List Int)) (strict : Bool)
    (seat_by_id : Int → Option Seat) :
    (check_partial_constraintsD assignments student_id seat_id constraints
        adjacent_lr adjacent_9 strict seat_by_id).1 =
      check_partial_constraints assignments student_id seat_id constraints
        (dview adjacent_lr) (dview adjacent_9) strict seat_by_id ∧
    dview (check_partial_constraintsD assignments student_id seat_id constraints
        adjacent_lr adjacent_9 strict seat_by_id).2.1 = dview adjacent_lr ∧
    dview (check_partial_constraintsD assignments student_id seat_id constraints
        adjacent_lr adjacent_9 strict seat_by_id).2.2 = dview adjacent_9 := by
  unfold check_partial_constraintsD check_partial_constraints
  cases hsb : seat_by_id seat_id with
  | none => exact ⟨rfl, rfl, rfl⟩
  | some seat =>
    dsimp only
    cases hsc : dget constraints student_id with
    | none =>
      dsimp only
      by_cases hallow : is_seat_allowed_for_student seat none = false
      · rw [if_pos hallow, if_pos hallow]
        exact ⟨rfl, rfl, rfl⟩
      · rw [if_neg hallow, if_neg hallow]
        rw [if_neg (by decide : ¬ ((true : Bool) = false))]
        rcases hrl : reverse_loop student_id seat_id constraints strict
            assignments adjacent_lr adjacent_9 with ⟨b, lr2, a92⟩
        obtain ⟨hb, hv1, hv2⟩ := reverse_loop_spec student_id seat_id constraints
          strict assignments adjacent_lr adjacent_9
        rw [hrl] at hb hv1 hv2
        dsimp only at hb hv1 hv2
        cases b with
        | false =>
          dsimp only
          rw [if_pos hb.symm]
          exact ⟨rfl, hv1, hv2⟩
        | true =>
          dsimp only
          have hne : ¬ (reverseOK assignments student_id seat_id constraints
              (dview adjacent_lr) (dview adjacent_9) strict = false) := by
            rw [← hb]; decide
          rw [if_neg hne]
          exact ⟨rfl, hv1, hv2⟩
    | some c =>
      dsimp only
      by_cases hallow : is_seat_allowed_for_student seat (some c) = false
      · rw [if_pos hallow, if_pos hallow]
        exact ⟨rfl, rfl, rfl⟩
      · rw [if_neg hallow, if_neg hallow]
        rcases hmbl : must_be_loop assignments seat_id c.must_be_adjacent_to
            adjacent_lr with ⟨b1, lr1⟩
        obtain ⟨hb1, hw1⟩ := must_be_loop_spec assignments seat_id
          c.must_be_adjacent_to adjacent_lr
        rw [hmbl] at hb1 hw1
        dsimp only at hb1 hw1
        cases b1 with
        | false =>
          dsimp only
          rw [if_pos (by rw [← hb1]; simp)]
          exact ⟨rfl, hw1, rfl⟩
        | true =>
          dsimp only
          rcases hmnl : must_not_loop assignments seat_id strict
              c.must_not_adjacent_to lr1 adjacent_9 with ⟨b2, lr2, a92⟩
          obtain ⟨hb2, hw2, hw3⟩ := must_not_loop_spec assignments seat_id strict
            c.must_not_adjacent_to lr1 adjacent_9
          rw [hmnl] at hb2 hw2 hw3
          dsimp only at hb2 hw2 hw3
          rw [hw1] at hb2
          cases b2 with
          | false =>
            dsimp only
            rw [if_pos (by rw [← hb1, ← hb2]; simp)]
            exact ⟨rfl, by rw [hw2, hw1], hw3⟩
          | true =>
            dsimp only
            rw [if_neg (by rw [← hb1, ← hb2]; simp)]
            rcases hrl : reverse_loop student_id seat_id constraints strict
                assignments lr2 a92 with ⟨b3, lr3, a93⟩
            obtain ⟨hb3, hv1, hv2⟩ := reverse_loop_spec student_id seat_id
              constraints strict assignments lr2 a92
            rw [hrl] at hb3 hv1 hv2
            dsimp only at hb3 hv1 hv2
            rw [hw2, hw1] at hb3 hv1
            rw [hw3] at hb3 hv2
            cases b3 with
            | false =>
              dsimp only
              rw [if_pos hb3.symm]
              exact ⟨rfl, hv1, hv2⟩
            | true =>
              dsimp only
              have hne : ¬ (reverseOK assignments student_id seat_id constraints
                  (dview adjacent_lr) (dview adjacent_9) strict = false) := by
                rw [← hb3]; decide
              rw [if_neg hne]
              exact ⟨rfl, hv1, hv2⟩

/-! ## Solver soundness: what a passed check guarantees -/

theorem is_seat_allowed_true_elim (seat : Seat) (c : StudentConstraint)
    (h : is_seat_allowed_for_student seat (some c) = true) :
    (∀ rs, c.allowed_rows = some rs → seat.row ∈ rs) ∧
    (∀ cs, c.allowed_cols = some cs → seat.col ∈ cs) := by
  unfold is_seat_allowed_for_student at h
  dsimp only at h
  constructor
  · intro rs hrs
    rw [hrs] at h
    by_cases hmem : seat.row ∈ rs
    · exact hmem
    · rw [if_pos (by simpa using hmem)] at h
      cases h
  · intro cs hcs
    rw [hcs] at h
    by_cases hmem : seat.col ∈ cs
    · exact hmem
    · by_cases hr : (match c.allowed_rows with
          | some rs => decide (seat.row ∉ rs)
          | none => false) = true
      · rw [if_pos hr] at h
        cases h
      · rw [if_neg hr, if_pos (by simpa using hmem)] at h
        cases h

theorem mustBeOK_true_elim (assignments : List (Int × Int)) (seat_id : Int)
    (adj : Int → List Int) (others : List Int)
    (h : mustBeOK assignments seat_id adj others = true) :
    ∀ other ∈ others, ∀ os, dget assignments other = some os → os ∈ adj seat_id := by
  intro other hother os hos
  unfold mustBeOK at h
  rw [List.all_eq_true] at h
  have := h other hother
  rw [hos] at this
  simpa using this

theorem mustNotOK_true_elim (assignments : List (Int × Int)) (seat_id : Int)
    (adj : Int → List Int) (others : List Int)
    (h : mustNotOK assignments seat_id adj others = true) :
    ∀ other ∈ others, ∀ os, dget assignments other = some os → os ∉ adj seat_id := by
  intro other hother os hos
  unfold mustNotOK at h
  rw [List.all_eq_true] at h
  have := h other hother
  rw [hos] at this
  simpa using this

theorem reverseOK_true_elim (assignments : List (Int × Int))
    (student_id seat_id : Int) (constraints : List (Int × StudentConstraint))
    (adjacent_lr adjacent_9 : Int → List Int) (strict : Bool)
    (h : reverseOK assignments student_id seat_id constraints
      adjacent_lr adjacent_9 strict = true) :
    ∀ p ∈ assignments, ∀ osc, dget constraints p.1 = some osc →
      (student_id ∈ osc.must_be_adjacent_to → p.2 ∈ adjacent_lr seat_id) ∧
      (student_id ∈ osc.must_not_adjacent_to →
        (strict = true → seat_id ∉ adjacent_9 p.2) ∧
        (strict = false → seat_id ∉ adjacent_lr p.2)) := by
  intro p hp osc hosc
  unfold reverseOK at h
  rw [List.all_eq_true] at h
  have hh := h p hp
  rw [hosc] at hh
  simp only [Bool.and_eq_true] at hh
  constructor
  · intro hmb
    have := hh.1
    rw [if_pos hmb] at this
    simpa using this
  · intro hmn
    have := hh.2
    rw [if_pos hmn] at this
    cases strict with
    | true =>
      constructor
      · intro _
        simp only [ite_cond_true, if_true] at this
        simpa using this
      · intro hfalse
        exact absurd hfalse (by decide)
    | false =>
      constructor
      · intro htrue
        exact absurd htrue (by decide)
      · intro _
        simp only [ite_cond_false, if_false] at this
        simpa using this

theorem check_true_elim (assignments : List (Int × Int))
    (student_id seat_id : Int) (constraints : List (Int × StudentConstraint))
    (adjacent_lr adjacent_9 : Int → List Int) (strict : Bool)
    (seat_by_id : Int → Option Seat)
    (h : check_partial_constraints assignments student_id seat_id constraints
      adjacent_lr adjacent_9 strict seat_by_id = some true) :
    (∀ c, dget constraints student_id = some c →
      mustBeOK assignments seat_id adjacent_lr c.must_be_adjacent_to = true ∧
      mustNotOK assignments seat_id
        (if strict then adjacent_9 else adjacent_lr) c.must_not_adjacent_to = true) ∧
    reverseOK assignments student_id seat_id constraints
      adjacent_lr adjacent_9 strict = true := by
  unfold check_partial_constraints at h
  cases hsb : seat_by_id seat_id with
  | none => rw [hsb] at h; cases h
  | some seat =>
    rw [hsb] at h
    dsimp only at h
    by_cases hallow : is_seat_allowed_for_student seat
        (dget constraints student_id) = false
    · rw [if_pos hallow] at h; cases h
    · rw [if_neg hallow] at h
      by_cases hown : (match dget constraints student_id with
          | none => true
          | some c =>
            mustBeOK assignments seat_id adjacent_lr c.must_be_adjacent_to
            && mustNotOK assignments seat_id
                (if strict then adjacent_9 else adjacent_lr)
                c.must_not_adjacent_to) = false
      · rw [if_pos hown] at h; cases h
      · rw [if_neg hown] at h
        by_cases hrev : reverseOK assignments student_id seat_id constraints
            adjacent_lr adjacent_9 strict = false
        · rw [if_pos hrev] at h; cases h
        · refine ⟨?_, Bool.of_not_eq_false hrev⟩
          intro c hc
          rw [hc] at hown
          have := Bool.of_not_eq_false hown
          dsimp only at this
          exact Bool.and_eq_true_iff.mp this

/-- What the checker guarantees about the ordered pair `(p, q)` when `q` was
placed (and checked) with `p` already in the partial assignment. -/
def CheckedPair (constraints : List (Int × StudentConstraint))
    (adjacent_lr adjacent_9 : Int → List Int) (strict : Bool)
    (p q : Int × Int) : Prop :=
  (∀ c, dget constraints q.1 = some c →
    (p.1 ∈ c.must_be_adjacent_to → p.2 ∈ adjacent_lr q.2) ∧
    (p.1 ∈ c.must_not_adjacent_to →
      (strict = true → p.2 ∉ adjacent_9 q.2) ∧
      (strict = false → p.2 ∉ adjacent_lr q.2))) ∧
  (∀ oc, dget constraints p.1 = some oc →
    (q.1 ∈ oc.must_be_adjacent_to → p.2 ∈ adjacent_lr q.2) ∧
    (q.1 ∈ oc.must_not_adjacent_to →
      (strict = true → q.2 ∉ adjacent_9 p.2) ∧
      (strict = false → q.2 ∉ adjacent_lr p.2)))

theorem checkedPair_of_check_true (assignments : List (Int × Int))
    (sid st : Int) (constraints : List (Int × StudentConstraint))
    (adjacent_lr adjacent_9 : Int → List Int) (strict : Bool)
    (seat_by_id : Int → Option Seat)
    (hnd : (assignments.map Prod.fst).Nodup)
    (h : check_partial_constraints assignments sid st constraints
      adjacent_lr adjacent_9 strict seat_by_id = some true) :
    ∀ p ∈ assignments, CheckedPair constraints adjacent_lr adjacent_9 strict p (sid, st) := by
  obtain ⟨hown, hrev⟩ := check_true_elim assignments sid st constraints
    adjacent_lr adjacent_9 strict seat_by_id h
  intro p hp
  constructor
  · intro c hc
    obtain ⟨hmb, hmn⟩ := hown c hc
    have hpget : dget assignments p.1 = some p.2 := dget_of_mem assignments p hnd hp
    constructor
    · intro hpmem
      exact mustBeOK_true_elim assignments st adjacent_lr _ hmb p.1 hpmem p.2 hpget
    · intro hpmem
      have hnot := mustNotOK_true_elim assignments st _ _ hmn p.1 hpmem p.2 hpget
      cases strict with
      | true =>
        constructor
        · intro _
          simpa [ite_cond_true] using hnot
        · intro hfalse
          exact absurd hfalse (by decide)
      | false =>
        constructor
        · intro htrue
          exact absurd htrue (by decide)
        · intro _
          simpa [ite_cond_false] using hnot
  · intro oc hoc
    exact reverseOK_true_elim assignments sid st constraints adjacent_lr
      adjacent_9 strict hrev p hp oc hoc

/-- Every placed student sits on a seat of the layout that passes their own
positional filter. -/
def PlacedOK (seats : List Seat) (constraints : List (Int × StudentConstraint))
    (a : List (Int × Int)) : Prop :=
  ∀ p ∈ a, ∃ seat ∈ seats, seat.id = p.2 ∧
    is_seat_allowed_for_student seat (dget constraints p.1) = true

/-- The search invariant of `backtrack`: distinct students, distinct seats,
positional legality, and every placed pair passed the checker in its
placement order. -/
def SolverInv (seats : List Seat) (constraints : List (Int × StudentConstraint))
    (adjacent_lr adjacent_9 : Int → List Int) (strict : Bool)
    (a : List (Int × Int)) : Prop :=
  (a.map Prod.fst).Nodup ∧ (a.map Prod.snd).Nodup ∧
  PlacedOK seats constraints a ∧
  a.Pairwise (CheckedPair constraints adjacent_lr adjacent_9 strict)

theorem candidate_seats_mem_elim (seats : List Seat) (a : List (Int × Int))
    (sc : Option StudentConstraint) (st : Int)
    (h : st ∈ candidate_seats seats a sc) :
    st ∉ a.map Prod.snd ∧
    ∃ seat ∈ seats, seat.id = st ∧ is_seat_allowed_for_student seat sc = true := by
  unfold candidate_seats at h
  rw [List.mem_map] at h
  obtain ⟨seat, hseat, rfl⟩ := h
  rw [List.mem_filter] at hseat
  obtain ⟨hmem, hcond⟩ := hseat
  rw [Bool.and_eq_true] at hcond
  refine ⟨by simpa using hcond.1, seat, hmem, rfl, hcond.2⟩

theorem solverInv_extend (seats : List Seat)
    (constraints : List (Int × StudentConstraint))
    (adjacent_lr adjacent_9 : Int → List Int) (strict : Bool)
    (seat_by_id : Int → Option Seat) (a : List (Int × Int)) (sid st : Int)
    (hinv : SolverInv seats constraints adjacent_lr adjacent_9 strict a)
    (hfresh : sid ∉ a.map Prod.fst)
    (hcand : st ∈ candidate_seats seats a (dget constraints sid))
    (hcheck : check_partial_constraints a sid st constraints adjacent_lr
      adjacent_9 strict seat_by_id = some true) :
    SolverInv seats constraints adjacent_lr adjacent_9 strict (a ++ [(sid, st)]) := by
  obtain ⟨hk, hv, hpl, hpw⟩ := hinv
  obtain ⟨hstv, seat, hseat, hid, hallow⟩ := candidate_seats_mem_elim seats a
    (dget constraints sid) st hcand
  refine ⟨?_, ?_, ?_, ?_⟩
  · rw [List.map_append]
    simp only [List.map_cons, List.map_nil]
    refine List.Nodup.append hk (List.nodup_singleton _) ?_
    intro x hx hx2
    rw [List.mem_singleton] at hx2
    subst hx2
    exact hfresh hx
  · rw [List.map_append]
    simp only [List.map_cons, List.map_nil]
    refine List.Nodup.append hv (List.nodup_singleton _) ?_
    intro x hx hx2
    rw [List.mem_singleton] at hx2
    subst hx2
    exact hstv hx
  · intro p hp
    rcases List.mem_append.mp hp with hp | hp
    · exact hpl p hp
    · rw [List.mem_singleton] at hp
      subst hp
      exact ⟨seat, hseat, hid, hallow⟩
  · rw [List.pairwise_append]
    refine ⟨hpw, List.pairwise_singleton _ _, ?_⟩
    intro p hp q hq
    rw [List.mem_singleton] at hq
    subst hq
    exact checkedPair_of_check_true a sid st constraints adjacent_lr adjacent_9
      strict seat_by_id hk hcheck p hp

theorem backtrack_sound {R : Type} (shuffle : R → List Int → List Int × R)
    (Hsub : ∀ (g : R) (l : List Int), ∀ x ∈ (shuffle g l).1, x ∈ l)
    (seat_by_id : Int → Option Seat) (seats : List Seat)
    (constraints : List (Int × StudentConstraint))
    (adjacent_lr adjacent_9 : Int → List Int) (strict : Bool) :
    ∀ (rem : List Int) (a : List (Int × Int)) (g : R)
      (res : List (Int × Int)) (g' : R),
      backtrack shuffle seat_by_id seats constraints adjacent_lr adjacent_9
        strict rem a g = some (some res, g') →
      SolverInv seats constraints adjacent_lr adjacent_9 strict a →
      (∀ sid ∈ rem, sid ∉ a.map Prod.fst) → rem.Nodup →
      SolverInv seats constraints adjacent_lr adjacent_9 strict res ∧
      res.map Prod.fst = a.map Prod.fst ++ rem := by
  intro rem
  induction rem with
  | nil =>
    intro a g res g' h hinv _ _
    simp only [backtrack, Option.some.injEq, Prod.mk.injEq] at h
    obtain ⟨rfl, -⟩ := h
    exact ⟨hinv, by simp⟩
  | cons sid rest ih =>
    intro a g res g' h hinv hfresh hnd
    unfold backtrack at h
    dsimp only at h
    have hndrest : rest.Nodup := (List.nodup_cons.mp hnd).2
    have hsidrest : sid ∉ rest := (List.nodup_cons.mp hnd).1
    have hsida : sid ∉ a.map Prod.fst := hfresh sid (List.mem_cons_self sid rest)
    have hrest : ∀ s ∈ rest, s ∉ a.map Prod.fst := fun s hs =>
      hfresh s (List.mem_cons_of_mem sid hs)
    have aux : ∀ (cl : List Int),
        (∀ x ∈ cl, x ∈ candidate_seats seats a (dget constraints sid)) →
        ∀ (g0 : R),
          tryCands
            (fun a2 st => check_partial_constraints a2 sid st constraints
              adjacent_lr adjacent_9 strict seat_by_id)
            (backtrack shuffle seat_by_id seats constraints adjacent_lr
              adjacent_9 strict rest) sid cl a g0 = some (some res, g') →
          SolverInv seats constraints adjacent_lr adjacent_9 strict res ∧
          res.map Prod.fst = a.map Prod.fst ++ sid :: rest := by
      intro cl
      induction cl with
      | nil =>
        intro _ g0 hcontra
        simp [tryCands] at hcontra
      | cons st more ihc =>
        intro hsubc g0 htc
        simp only [tryCands] at htc
        cases hchk : check_partial_constraints a sid st constraints adjacent_lr
            adjacent_9 strict seat_by_id with
        | none => rw [hchk] at htc; cases htc
        | some b =>
          rw [hchk] at htc
          cases b with
          | false =>
            exact ihc (fun x hx => hsubc x (List.mem_cons_of_mem st hx)) g0 htc
          | true =>
            dsimp only at htc
            have hcand : st ∈ candidate_seats seats a (dget constraints sid) :=
              hsubc st (List.mem_cons_self st more)
            have hdset : dset a sid st = a ++ [(sid, st)] :=
              dset_of_not_mem a sid st hsida
            cases hbt : backtrack shuffle seat_by_id seats constraints adjacent_lr
                adjacent_9 strict rest (dset a sid st) g0 with
            | none => rw [hbt] at htc; cases htc
            | some pr =>
              obtain ⟨or, g2⟩ := pr
              rw [hbt] at htc
              cases or with
              | some resx =>
                dsimp only at htc
                have h1 : resx = res ∧ g2 = g' := by simpa using htc
                obtain ⟨h2, -⟩ := h1
                rw [hdset] at hbt
                have hinv' := solverInv_extend seats constraints adjacent_lr
                  adjacent_9 strict seat_by_id a sid st hinv hsida hcand hchk
                have hfresh' : ∀ s ∈ rest, s ∉ (a ++ [(sid, st)]).map Prod.fst := by
                  intro s hs hmem
                  rw [List.map_append] at hmem
                  rcases List.mem_append.mp hmem with hmem | hmem
                  · exact hrest s hs hmem
                  · simp only [List.map_cons, List.map_nil,
                      List.mem_singleton] at hmem
                    subst hmem
                    exact hsidrest hs
                obtain ⟨hi, hm⟩ := ih (a ++ [(sid, st)]) g0 resx g2 hbt hinv'
                  hfresh' hndrest
                subst h2
                refine ⟨hi, ?_⟩
                rw [hm, List.map_append, List.append_assoc]
                rfl
              | none =>
                dsimp only at htc
                have hrestore : ddel (dset a sid st) sid = a :=
                  ddel_dset_of_not_mem a sid st hsida
                rw [hrestore] at htc
                exact ihc (fun x hx => hsubc x (List.mem_cons_of_mem st hx)) g2 htc
    exact aux (shuffle g (candidate_seats seats a (dget constraints sid))).1
      (fun x hx => Hsub g (candidate_seats seats a (dget constraints sid)) x hx)
      (shuffle g (candidate_seats seats a (dget constraints sid))).2 h

theorem solve_sound {R : Type} (shuffle : R → List Int → List Int × R)
    (Hsub : ∀ (g : R) (l : List Int), ∀ x ∈ (shuffle g l).1, x ∈ l)
    (seat_by_id : Int → Option Seat) (students : List Int) (seats : List Seat)
    (constraints : List (Int × StudentConstraint))
    (adjacent_lr adjacent_9 : Int → List Int) (strict : Bool) (g : R)
    (res : List (Int × Int)) (g' : R) (hstu : students.Nodup)
    (h : solve_one_assignment shuffle seat_by_id students seats constraints
      adjacent_lr adjacent_9 strict g = some (some res, g')) :
    SolverInv seats constraints adjacent_lr adjacent_9 strict res ∧
    res.map Prod.fst = students_sorted constraints students := by
  have hnds : (students_sorted constraints students).Nodup :=
    (students_sorted_perm constraints students).nodup_iff.mpr hstu
  unfold solve_one_assignment at h
  have hbase : SolverInv seats constraints adjacent_lr adjacent_9 strict [] := by
    refine ⟨List.nodup_nil, List.nodup_nil, ?_, List.Pairwise.nil⟩
    intro p hp
    cases hp
  obtain ⟨hi, hm⟩ := backtrack_sound shuffle Hsub seat_by_id seats constraints
    adjacent_lr adjacent_9 strict (students_sorted constraints students) [] g
    res g' h hbase (by intro sid _ hmem; cases hmem) hnds
  exact ⟨hi, by simpa using hm⟩

/-- A full assignment that is legal in the sense of the spec: each student
of the roster appears exactly once as a key, every assigned seat id is a
seat of the layout, no seat is used twice, and all positional and (mutual)
relational constraints hold. -/
def LegalAssignment (students : List Int) (seats : List Seat)
    (constraints : List (Int × StudentConstraint))
    (adjacent_lr adjacent_9 : Int → List Int) (strict : Bool)
    (a : List (Int × Int)) : Prop :=
  (∀ x, x ∈ a.map Prod.fst ↔ x ∈ students) ∧
  (a.map Prod.fst).Nodup ∧
  (a.map Prod.snd).Nodup ∧
  (∀ p ∈ a, ∃ seat ∈ seats, seat.id = p.2) ∧
  (∀ p ∈ a, ∀ c, dget constraints p.1 = some c →
    (∀ rs, c.allowed_rows = some rs →
      ∀ seat ∈ seats, seat.id = p.2 → seat.row ∈ rs) ∧
    (∀ cs, c.allowed_cols = some cs →
      ∀ seat ∈ seats, seat.id = p.2 → seat.col ∈ cs)) ∧
  (∀ p ∈ a, ∀ q ∈ a, p.1 ≠ q.1 → ∀ c, dget constraints p.1 = some c →
    (q.1 ∈ c.must_be_adjacent_to →
      q.2 ∈ adjacent_lr p.2 ∧ p.2 ∈ adjacent_lr q.2) ∧
    (q.1 ∈ c.must_not_adjacent_to →
      (strict = true → q.2 ∉ adjacent_9 p.2 ∧ p.2 ∉ adjacent_9 q.2) ∧
      (strict = false → q.2 ∉ adjacent_lr p.2 ∧ p.2 ∉ adjacent_lr q.2)))

theorem solve_result_legal {R : Type}
    (shuffle : R → List Int → List Int × R)
    (Hsub : ∀ (g : R) (l : List Int), ∀ x ∈ (shuffle g l).1, x ∈ l)
    (seat_by_id : Int → Option Seat) (students : List Int) (seats : List Seat)
    (constraints : List (Int × StudentConstraint))
    (adjacent_lr adjacent_9 : Int → List Int) (strict : Bool) (g : R)
    (res : List (Int × Int)) (g' : R)
    (hstu : students.Nodup) (hseat : (seats.map Seat.id).Nodup)
    (hsymLR : ∀ x y, y ∈ adjacent_lr x ↔ x ∈ adjacent_lr y)
    (hsymBox : ∀ x y, y ∈ adjacent_9 x ↔ x ∈ adjacent_9 y)
    (h : solve_one_assignment shuffle seat_by_id students seats constraints
      adjacent_lr adjacent_9 strict g = some (some res, g')) :
    LegalAssignment students seats constraints adjacent_lr adjacent_9
      strict res := by
  obtain ⟨⟨hk, hv, hpl, hpw⟩, hm⟩ := solve_sound shuffle Hsub seat_by_id students
    seats constraints adjacent_lr adjacent_9 strict g res g' hstu h
  refine ⟨?_, hk, hv, ?_, ?_⟩
  · intro x
    rw [hm]
    exact (students_sorted_perm constraints students).mem_iff
  · intro p hp
    obtain ⟨seat0, hseat0, hid0, -⟩ := hpl p hp
    exact ⟨seat0, hseat0, hid0⟩
  constructor
  · intro p hp c hc
    obtain ⟨seat0, hseat0, hid0, hallow0⟩ := hpl p hp
    rw [hc] at hallow0
    obtain ⟨hrow, hcol⟩ := is_seat_allowed_true_elim seat0 c hallow0
    constructor
    · intro rs hrs seat hseatmem hseatid
      have : seat = seat0 := List.inj_on_of_nodup_map hseat hseatmem
        hseat0 (by rw [hseatid, hid0])
      rw [this]
      exact hrow rs hrs
    · intro cs hcs seat hseatmem hseatid
      have : seat = seat0 := List.inj_on_of_nodup_map hseat hseatmem
        hseat0 (by rw [hseatid, hid0])
      rw [this]
      exact hcol cs hcs
  · have hsym : Symmetric (fun p q : Int × Int =>
        CheckedPair constraints adjacent_lr adjacent_9 strict p q ∨
        CheckedPair constraints adjacent_lr adjacent_9 strict q p) :=
      fun p q hpq => hpq.symm
    have hall := (hpw.imp (fun hab => Or.inl hab)).forall hsym
    intro p hp q hq hne c hc
    have hne2 : p ≠ q := fun hh => hne (by rw [hh])
    rcases hall hp hq hne2 with hcp | hcp
    · -- p placed first, q later
      obtain ⟨-, h2⟩ := hcp
      obtain ⟨hmb, hmn⟩ := h2 c hc
      constructor
      · intro hq1
        have h3 : p.2 ∈ adjacent_lr q.2 := hmb hq1
        exact ⟨(hsymLR q.2 p.2).mp h3, h3⟩
      · intro hq1
        obtain ⟨hs1, hs2⟩ := hmn hq1
        constructor
        · intro hstrict
          have h3 : q.2 ∉ adjacent_9 p.2 := hs1 hstrict
          exact ⟨h3, fun hmem => h3 ((hsymBox q.2 p.2).mp hmem)⟩
        · intro hrelax
          have h3 : q.2 ∉ adjacent_lr p.2 := hs2 hrelax
          exact ⟨h3, fun hmem => h3 ((hsymLR q.2 p.2).mp hmem)⟩
    · -- q placed first, p later
      obtain ⟨h1, -⟩ := hcp
      obtain ⟨hmb, hmn⟩ := h1 c hc
      constructor
      · intro hq1
        have h3 : q.2 ∈ adjacent_lr p.2 := hmb hq1
        exact ⟨h3, (hsymLR p.2 q.2).mp h3⟩
      · intro hq1
        obtain ⟨hs1, hs2⟩ := hmn hq1
        constructor
        · intro hstrict
          have h3 : q.2 ∉ adjacent_9 p.2 := hs1 hstrict
          exact ⟨h3, fun hmem => h3 ((hsymBox q.2 p.2).mp hmem)⟩
        · intro hrelax
          have h3 : q.2 ∉ adjacent_lr p.2 := hs2 hrelax
          exact ⟨h3, fun hmem => h3 ((hsymLR q.2 p.2).mp hmem)⟩

/-- C1: every assignment returned by the solver satisfies all declared
constraints — positional restrictions for each student, mutual `adjacentLR`
membership for every required-adjacent pair (whichever was placed first),
and mutual absence from `adjacentBox` (strict mode) resp. `adjacentLR`
(relaxed mode) for every forbidden pair.  The adjacency maps are assumed
symmetric, as the data model guarantees for maps built by
`build_adjacency_maps` (asymmetric maps reaching the checker are a stated
precondition violation). -/
theorem solver_result_satisfies_constraints {R : Type}
    (shuffle : R → List Int → List Int × R)
    (Hsub : ∀ (g : R) (l : List Int), ∀ x ∈ (shuffle g l).1, x ∈ l)
    (seat_by_id : Int → Option Seat) (students : List Int) (seats : List Seat)
    (constraints : List (Int × StudentConstraint))
    (adjacent_lr adjacent_9 : Int → List Int) (strict : Bool) (g : R)
    (res : List (Int × Int)) (g' : R)
    (hstu : students.Nodup) (hseat : (seats.map Seat.id).Nodup)
    (hsymLR : ∀ x y, y ∈ adjacent_lr x ↔ x ∈ adjacent_lr y)
    (hsymBox : ∀ x y, y ∈ adjacent_9 x ↔ x ∈ adjacent_9 y)
    (h : solve_one_assignment shuffle seat_by_id students seats constraints
      adjacent_lr adjacent_9 strict g = some (some res, g')) :
    (∀ p ∈ res, ∀ c, dget constraints p.1 = some c →
      (∀ rs, c.allowed_rows = some rs →
        ∀ seat ∈ seats, seat.id = p.2 → seat.row ∈ rs) ∧
      (∀ cs, c.allowed_cols = some cs →
        ∀ seat ∈ seats, seat.id = p.2 → seat.col ∈ cs)) ∧
    (∀ p ∈ res, ∀ q ∈ res, p.1 ≠ q.1 → ∀ c, dget constraints p.1 = some c →
      (q.1 ∈ c.must_be_adjacent_to →
        q.2 ∈ adjacent_lr p.2 ∧ p.2 ∈ adjacent_lr q.2) ∧
      (q.1 ∈ c.must_not_adjacent_to →
        (strict = true → q.2 ∉ adjacent_9 p.2 ∧ p.2 ∉ adjacent_9 q.2) ∧
        (strict = false → q.2 ∉ adjacent_lr p.2 ∧ p.2 ∉ adjacent_lr q.2))) := by
  have hl := solve_result_legal shuffle Hsub seat_by_id students seats
    constraints adjacent_lr adjacent_9 strict g res g' hstu hseat hsymLR
    hsymBox h
  exact ⟨hl.2.2.2.2.1, hl.2.2.2.2.2⟩

/-- C2: whenever the solver returns a mapping, it is injective (no seat id
is used twice) and its key set is exactly the set of students passed in. -/
theorem solver_result_injective_and_total {R : Type}
    (shuffle : R → List Int → List Int × R)
    (Hsub : ∀ (g : R) (l : List Int), ∀ x ∈ (shuffle g l).1, x ∈ l)
    (seat_by_id : Int → Option Seat) (students : List Int) (seats : List Seat)
    (constraints : List (Int × StudentConstraint))
    (adjacent_lr adjacent_9 : Int → List Int) (strict : Bool) (g : R)
    (res : List (Int × Int)) (g' : R) (hstu : students.Nodup)
    (h : solve_one_assignment shuffle seat_by_id students seats constraints
      adjacent_lr adjacent_9 strict g = some (some res, g')) :
    (res.map Prod.snd).Nodup ∧
    (res.map Prod.fst).Nodup ∧
    (∀ x, x ∈ res.map Prod.fst ↔ x ∈ students) := by
  obtain ⟨⟨hk, hv, -, -⟩, hm⟩ := solve_sound shuffle Hsub seat_by_id students
    seats constraints adjacent_lr adjacent_9 strict g res g' hstu h
  refine ⟨hv, hk, ?_⟩
  intro x
  rw [hm]
  exact (students_sorted_perm constraints students).mem_iff

/-! ## No escaped exception when the session covers the seat list -/

theorem check_ne_none (assignments : List (Int × Int)) (sid st : Int)
    (constraints : List (Int × StudentConstraint))
    (adjacent_lr adjacent_9 : Int → List Int) (strict : Bool)
    (seat_by_id : Int → Option Seat) (hsb : (seat_by_id st).isSome) :
    check_partial_constraints assignments sid st constraints adjacent_lr
      adjacent_9 strict seat_by_id ≠ none := by
  unfold check_partial_constraints
  cases hs : seat_by_id st with
  | none => rw [hs] at hsb; cases hsb
  | some seat =>
    dsimp only
    split <;> (try split) <;> (try split) <;> (try split) <;> simp

theorem tryCands_ne_none {R : Type}
    (checkFn : List (Int × Int) → Int → Option Bool)
    (recur : List (Int × Int) → R → Option (Option (List (Int × Int)) × R))
    (sid : Int)
    (hrec : ∀ a2 g, recur a2 g ≠ none) :
    ∀ (cl : List Int), (∀ a2 st, st ∈ cl → checkFn a2 st ≠ none) →
      ∀ (a2 : List (Int × Int)) (g : R),
        tryCands checkFn recur sid cl a2 g ≠ none := by
  intro cl
  induction cl with
  | nil => intro _ a2 g; simp [tryCands]
  | cons st more ihc =>
    intro hchk a2 g
    simp only [tryCands]
    cases hc : checkFn a2 st with
    | none => exact absurd hc (hchk a2 st (List.mem_cons_self st more))
    | some b =>
      cases b with
      | false =>
        exact ihc (fun a3 t ht => hchk a3 t (List.mem_cons_of_mem st ht)) a2 g
      | true =>
        dsimp only
        cases hr : recur (dset a2 sid st) g with
        | none => exact absurd hr (hrec (dset a2 sid st) g)
        | some pr =>
          obtain ⟨or, g2⟩ := pr
          cases or with
          | some resx => simp
          | none =>
            exact ihc (fun a3 t ht => hchk a3 t (List.mem_cons_of_mem st ht))
              (ddel (dset a2 sid st) sid) g2

theorem backtrack_ne_none {R : Type} (shuffle : R → List Int → List Int × R)
    (Hsub : ∀ (g : R) (l : List Int), ∀ x ∈ (shuffle g l).1, x ∈ l)
    (seat_by_id : Int → Option Seat) (seats : List Seat)
    (constraints : List (Int × StudentConstraint))
    (adjacent_lr adjacent_9 : Int → List Int) (strict : Bool)
    (hsession : ∀ seat ∈ seats, (seat_by_id seat.id).isSome) :
    ∀ (rem : List Int) (a : List (Int × Int)) (g : R),
      backtrack shuffle seat_by_id seats constraints adjacent_lr adjacent_9
        strict rem a g ≠ none := by
  intro rem
  induction rem with
  | nil => intro a g; simp [backtrack]
  | cons sid rest ih =>
    intro a g
    unfold backtrack
    dsimp only
    refine tryCands_ne_none _ _ sid (fun a2 g2 => ih a2 g2) _ ?_ a _
    intro a2 st hst
    have hst2 := Hsub g (candidate_seats seats a (dget constraints sid)) st hst
    obtain ⟨-, seat, hseat, hid, -⟩ := candidate_seats_mem_elim seats a
      (dget constraints sid) st hst2
    refine check_ne_none a2 sid st constraints adjacent_lr adjacent_9 strict
      seat_by_id ?_
    rw [← hid]
    exact hsession seat hseat

theorem solve_ne_none {R : Type} (shuffle : R → List Int → List Int × R)
    (Hsub : ∀ (g : R) (l : List Int), ∀ x ∈ (shuffle g l).1, x ∈ l)
    (seat_by_id : Int → Option Seat) (students : List Int) (seats : List Seat)
    (constraints : List (Int × StudentConstraint))
    (adjacent_lr adjacent_9 : Int → List Int) (strict : Bool) (g : R)
    (hsession : ∀ seat ∈ seats, (seat_by_id seat.id).isSome) :
    solve_one_assignment shuffle seat_by_id students seats constraints
      adjacent_lr adjacent_9 strict g ≠ none := by
  unfold solve_one_assignment
  exact backtrack_ne_none shuffle Hsub seat_by_id seats constraints adjacent_lr
    adjacent_9 strict hsession (students_sorted constraints students) [] g

theorem gen_loop_ne_none {R : Type} (shuffle : R → List Int → List Int × R)
    (Hsub : ∀ (g : R) (l : List Int), ∀ x ∈ (shuffle g l).1, x ∈ l)
    (seat_by_id : Int → Option Seat) (num_layouts : Nat) (seats : List Seat)
    (constraints : List (Int × StudentConstraint))
    (adjacent_lr adjacent_9 : Int → List Int) (strict : Bool)
    (hsession : ∀ seat ∈ seats, (seat_by_id seat.id).isSome) :
    ∀ (fuel : Nat) (students : List Int) (layouts seen : List (List (Int × Int)))
      (attempts : Nat) (g : R),
      gen_loop shuffle seat_by_id num_layouts seats constraints adjacent_lr
        adjacent_9 strict fuel students layouts seen attempts g ≠ none := by
  intro fuel
  induction fuel with
  | zero => intro students layouts seen attempts g; simp [gen_loop]
  | succ n ih =>
    intro students layouts seen attempts g
    unfold gen_loop
    dsimp only
    by_cases hlen : layouts.length < num_layouts
    · rw [if_pos hlen]
      cases hs : solve_one_assignment shuffle seat_by_id
          (shuffle g students).1 seats constraints adjacent_lr adjacent_9
          strict (shuffle g students).2 with
      | none =>
        exact absurd hs (solve_ne_none shuffle Hsub seat_by_id
          (shuffle g students).1 seats constraints adjacent_lr adjacent_9
          strict (shuffle g students).2 hsession)
      | some pr =>
        obtain ⟨or, g2⟩ := pr
        cases or with
        | none => exact ih (shuffle g students).1 layouts seen (attempts + 1) g2
        | some result =>
          dsimp only
          by_cases hdup : canonical result ∈ seen
          · rw [if_pos hdup]
            exact ih (shuffle g students).1 layouts seen (attempts + 1) g2
          · rw [if_neg hdup]
            exact ih (shuffle g students).1 (layouts ++ [result])
              (seen ++ [canonical result]) (attempts + 1) g2
    · rw [if_neg hlen]
      simp

/-! ## Scenario D: two far-apart seats with a mutual adjacency requirement -/

/-- Layout of scenario D: two seats far apart in both row and column. -/
def dSeats : List Seat := [⟨1, 1, 1⟩, ⟨2, 5, 5⟩]

/-- Session seat lookup for scenario D. -/
def dSession : Int → Option Seat :=
  fun i => dget [((1 : Int), Seat.mk 1 1 1), ((2 : Int), Seat.mk 2 5 5)] i

/-- Mutual `must_be_adjacent_to` constraints of scenario D. -/
def dConstraints : List (Int × StudentConstraint) :=
  [(1, ⟨1, none, none, [2], []⟩), (2, ⟨2, none, none, [1], []⟩)]

/-- Scenario D's left-right adjacency view (empty: the seats are far apart). -/
def dLR : Int → List Int := dview (build_adjacency_maps dSeats).1

/-- Scenario D's 8-neighbourhood adjacency view (also empty). -/
def dBox : Int → List Int := dview (build_adjacency_maps dSeats).2

theorem dCands_subset (a : List (Int × Int)) (sc : Option StudentConstraint)
    (x : Int) (h : x ∈ candidate_seats dSeats a sc) : x = 1 ∨ x = 2 := by
  obtain ⟨-, seat, hseat, hid, -⟩ := candidate_seats_mem_elim dSeats a sc x h
  rcases List.mem_cons.mp hseat with rfl | hseat2
  · exact Or.inl hid.symm
  · rcases List.mem_cons.mp hseat2 with rfl | hnil
    · exact Or.inr hid.symm
    · cases hnil

theorem dCheck2_false (st t : Int) (hst : st = 1 ∨ st = 2) (ht : t = 1 ∨ t = 2) :
    check_partial_constraints [(1, st)] 2 t dConstraints dLR dBox true dSession
      = some false := by
  rcases hst with rfl | rfl <;> rcases ht with rfl | rfl <;> decide

theorem dTry2_none {R : Type}
    (recur : List (Int × Int) → R → Option (Option (List (Int × Int)) × R))
    (st : Int) (hst : st = 1 ∨ st = 2) :
    ∀ (cl : List Int), (∀ x ∈ cl, x = 1 ∨ x = 2) → ∀ (g : R),
      tryCands (fun a2 t => check_partial_constraints a2 2 t dConstraints dLR
        dBox true dSession) recur 2 cl [(1, st)] g = some (none, g) := by
  intro cl
  induction cl with
  | nil => intro _ g; rfl
  | cons t more ihc =>
    intro hsub g
    simp only [tryCands]
    rw [dCheck2_false st t hst (hsub t (List.mem_cons_self t more))]
    exact ihc (fun x hx => hsub x (List.mem_cons_of_mem t hx)) g

theorem dBacktrack2_none {R : Type} (shuffle : R → List Int → List Int × R)
    (Hsub : ∀ (g : R) (l : List Int), ∀ x ∈ (shuffle g l).1, x ∈ l)
    (st : Int) (hst : st = 1 ∨ st = 2) (g : R) :
    backtrack shuffle dSession dSeats dConstraints dLR dBox true [2] [(1, st)] g
      = some (none, (shuffle g (candidate_seats dSeats [(1, st)]
          (dget dConstraints 2))).2) := by
  unfold backtrack
  dsimp only
  exact dTry2_none _ st hst _
    (fun x hx => dCands_subset _ _ x
      (Hsub g (candidate_seats dSeats [(1, st)] (dget dConstraints 2)) x hx)) _

theorem dCheck1_true (t : Int) (ht : t = 1 ∨ t = 2) :
    check_partial_constraints [] 1 t dConstraints dLR dBox true dSession
      = some true := by
  rcases ht with rfl | rfl <;> decide

theorem dTry1_none {R : Type} (shuffle : R → List Int → List Int × R)
    (Hsub : ∀ (g : R) (l : List Int), ∀ x ∈ (shuffle g l).1, x ∈ l) :
    ∀ (cl : List Int), (∀ x ∈ cl, x = 1 ∨ x = 2) → ∀ (g : R),
      ∃ g', tryCands (fun a2 t => check_partial_constraints a2 1 t dConstraints
          dLR dBox true dSession)
        (backtrack shuffle dSession dSeats dConstraints dLR dBox true [2])
        1 cl [] g = some (none, g') := by
  intro cl
  induction cl with
  | nil => intro _ g; exact ⟨g, rfl⟩
  | cons t more ihc =>
    intro hsub g
    simp only [tryCands]
    rw [dCheck1_true t (hsub t (List.mem_cons_self t more))]
    dsimp only
    have hdset : dset ([] : List (Int × Int)) 1 t = [(1, t)] := rfl
    rw [hdset]
    rw [dBacktrack2_none shuffle Hsub t (hsub t (List.mem_cons_self t more)) g]
    dsimp only
    have hddel : ddel [((1 : Int), t)] 1 = [] := rfl
    rw [hddel]
    exact ihc (fun x hx => hsub x (List.mem_cons_of_mem t hx)) _

theorem dScenario_unsat {R : Type} (shuffle : R → List Int → List Int × R)
    (Hsub : ∀ (g : R) (l : List Int), ∀ x ∈ (shuffle g l).1, x ∈ l) (g : R) :
    (solve_one_assignment shuffle dSession [1, 2] dSeats dConstraints dLR dBox
      true g).map Prod.fst = some none := by
  unfold solve_one_assignment
  have hss : students_sorted dConstraints [1, 2] = [1, 2] := by decide
  rw [hss]
  unfold backtrack
  dsimp only
  obtain ⟨g', hg⟩ := dTry1_none shuffle Hsub
    (shuffle g (candidate_seats dSeats [] (dget dConstraints 1))).1
    (fun x hx => dCands_subset _ _ x
      (Hsub g (candidate_seats dSeats [] (dget dConstraints 1)) x hx))
    (shuffle g (candidate_seats dSeats [] (dget dConstraints 1))).2
  rw [hg]
  rfl

/-- C4: failure is reported by value, not by a raised fault.  Whenever the
session seat lookup covers the seat list (as the UI guarantees), (1) a
solver call never raises, (2) `generate_multiple_layouts` never raises and
returns a (possibly empty) list, (3) if no legal full assignment exists the
solver returns `None` (the inner `none`), and (4) in particular for
scenario D — two seats not adjacent under either relation and two students
each required to be adjacent to the other — the solver returns `None` for
every PRNG behaviour. -/
theorem unsat_returns_none_not_exception :
    (∀ (R : Type) (shuffle : R → List Int → List Int × R),
      (∀ (g : R) (l : List Int), ∀ x ∈ (shuffle g l).1, x ∈ l) →
      ∀ (seat_by_id : Int → Option Seat) (students : List Int)
        (seats : List Seat) (constraints : List (Int × StudentConstraint))
        (adjacent_lr adjacent_9 : Int → List Int) (strict : Bool) (g : R),
        (∀ seat ∈ seats, (seat_by_id seat.id).isSome) →
        solve_one_assignment shuffle seat_by_id students seats constraints
          adjacent_lr adjacent_9 strict g ≠ none) ∧
    (∀ (R : Type) (shuffle : R → List Int → List Int × R),
      (∀ (g : R) (l : List Int), ∀ x ∈ (shuffle g l).1, x ∈ l) →
      ∀ (seat_by_id : Int → Option Seat) (num_layouts : Nat)
        (students : List Int) (seats : List Seat)
        (constraints : List (Int × StudentConstraint))
        (adjacent_lr adjacent_9 : Int → List Int) (strict : Bool) (g : R),
        (∀ seat ∈ seats, (seat_by_id seat.id).isSome) →
        generate_multiple_layouts shuffle seat_by_id num_layouts students seats
          constraints adjacent_lr adjacent_9 strict g ≠ none) ∧
    (∀ (R : Type) (shuffle : R → List Int → List Int × R),
      (∀ (g : R) (l : List Int), ∀ x ∈ (shuffle g l).1, x ∈ l) →
      ∀ (seat_by_id : Int → Option Seat) (students : List Int)
        (seats : List Seat) (constraints : List (Int × StudentConstraint))
        (adjacent_lr adjacent_9 : Int → List Int) (strict : Bool) (g : R),
        students.Nodup → (seats.map Seat.id).Nodup →
        (∀ x y, y ∈ adjacent_lr x ↔ x ∈ adjacent_lr y) →
        (∀ x y, y ∈ adjacent_9 x ↔ x ∈ adjacent_9 y) →
        (∀ seat ∈ seats, (seat_by_id seat.id).isSome) →
        (¬ ∃ a, LegalAssignment students seats constraints adjacent_lr
          adjacent_9 strict a) →
        (solve_one_assignment shuffle seat_by_id students seats constraints
          adjacent_lr adjacent_9 strict g).map Prod.fst = some none) ∧
    (∀ (R : Type) (shuffle : R → List Int → List Int × R),
      (∀ (g : R) (l : List Int), ∀ x ∈ (shuffle g l).1, x ∈ l) → ∀ (g : R),
      (solve_one_assignment shuffle dSession [1, 2] dSeats dConstraints dLR
        dBox true g).map Prod.fst = some none) := by
  refine ⟨?_, ?_, ?_, ?_⟩
  · intro R shuffle Hsub seat_by_id students seats constraints adjacent_lr
      adjacent_9 strict g hsession
    exact solve_ne_none shuffle Hsub seat_by_id students seats constraints
      adjacent_lr adjacent_9 strict g hsession
  · intro R shuffle Hsub seat_by_id num_layouts students seats constraints
      adjacent_lr adjacent_9 strict g hsession
    unfold generate_multiple_layouts
    exact gen_loop_ne_none shuffle Hsub seat_by_id num_layouts seats
      constraints adjacent_lr adjacent_9 strict hsession (num_layouts * 30)
      students [] [] 0 g
  · intro R shuffle Hsub seat_by_id students seats constraints adjacent_lr
      adjacent_9 strict g hstu hseat hsymLR hsymBox hsession hunsat
    cases hs : solve_one_assignment shuffle seat_by_id students seats
        constraints adjacent_lr adjacent_9 strict g with
    | none =>
      exact absurd hs (solve_ne_none shuffle Hsub seat_by_id students seats
        constraints adjacent_lr adjacent_9 strict g hsession)
    | some pr =>
      obtain ⟨or, g2⟩ := pr
      cases or with
      | none => rfl
      | some res =>
        have hl := solve_result_legal shuffle Hsub seat_by_id students
          seats constraints adjacent_lr adjacent_9 strict g res g2 hstu hseat
          hsymLR hsymBox hs
        exact absurd ⟨res, hl⟩ hunsat
  · intro R shuffle Hsub g
    exact dScenario_unsat shuffle Hsub g

/-! ## Concrete instances (witness data) -/

/-- A deterministic PRNG oracle: `random.shuffle` that leaves the list as
it is (one possible behaviour of the real shuffle). -/
def idShuffle : Unit → List Int → List Int × Unit := fun g l => (l, g)

/-- A 1x2 layout whose two seats are left-right adjacent. -/
def exSeats : List Seat := [⟨1, 1, 1⟩, ⟨2, 1, 2⟩]

/-- Session seat lookup matching `exSeats`. -/
def exSession : Int → Option Seat :=
  fun i => dget [((1 : Int), Seat.mk 1 1 1), ((2 : Int), Seat.mk 2 1 2)] i

/-- Mutual `must_be_adjacent_to` constraints for the two students. -/
def exConstraints : List (Int × StudentConstraint) :=
  [(1, ⟨1, none, none, [2], []⟩), (2, ⟨2, none, none, [1], []⟩)]

/-- Left-right adjacency view of `exSeats`. -/
def exLR : Int → List Int := dview (build_adjacency_maps exSeats).1

/-- 8-neighbourhood adjacency view of `exSeats`. -/
def exBox : Int → List Int := dview (build_adjacency_maps exSeats).2

theorem dview_build_fst_symm (seats : List Seat) (x y : Int) :
    y ∈ dview (build_adjacency_maps seats).1 x ↔
      x ∈ dview (build_adjacency_maps seats).1 y := by
  rw [mem_dview_build_fst, mem_dview_build_fst]
  exact ⟨specAdjacentLR_symm seats x y, specAdjacentLR_symm seats y x⟩

theorem dview_build_snd_symm (seats : List Seat) (x y : Int) :
    y ∈ dview (build_adjacency_maps seats).2 x ↔
      x ∈ dview (build_adjacency_maps seats).2 y := by
  rw [mem_dview_build_snd, mem_dview_build_snd]
  exact ⟨specAdjacentBox_symm seats x y, specAdjacentBox_symm seats y x⟩

theorem solver_result_satisfies_constraints_witness :
    (2 : Int) ∈ exLR 1 ∧ (1 : Int) ∈ exLR 2 := by
  have H := solver_result_satisfies_constraints idShuffle
    (fun g l x hx => hx) exSession [1, 2] exSeats exConstraints exLR exBox true
    () [(1, 1), (2, 2)] () (by decide) (by decide)
    (fun x y => dview_build_fst_symm exSeats x y)
    (fun x y => dview_build_snd_symm exSeats x y) (by decide)
  exact (H.2 (1, 1) (by decide) (2, 2) (by decide) (by decide)
    ⟨1, none, none, [2], []⟩ (by decide)).1 (by decide)

theorem solver_result_injective_and_total_witness :
    (([((1 : Int), (1 : Int)), (2, 2)].map Prod.snd).Nodup) ∧
    (([((1 : Int), (1 : Int)), (2, 2)].map Prod.fst).Nodup) ∧
    (∀ x, x ∈ [((1 : Int), (1 : Int)), (2, 2)].map Prod.fst ↔
      x ∈ [(1 : Int), 2]) :=
  solver_result_injective_and_total idShuffle (fun g l x hx => hx) exSession
    [1, 2] exSeats exConstraints exLR exBox true () [(1, 1), (2, 2)] ()
    (by decide) (by decide)

/-! ## Session-state dependence of the checker (C9) -/

/-- C9 (amended): the checker's boolean is a function of its declared
arguments TOGETHER WITH the ambient session seat lookup, and of the latter
only through its entry at `seat_id`: two calls with identical declared
arguments and the same session `seat_by_id[seat_id]` agree. -/
theorem check_partial_constraints_determined_with_session
    (assignments : List (Int × Int)) (student_id seat_id : Int)
    (constraints : List (Int × StudentConstraint))
    (adjacent_lr adjacent_9 : Int → List Int) (use_strict_non_adjacent : Bool)
    (s1 s2 : Int → Option Seat) (h : s1 seat_id = s2 seat_id) :
    check_partial_constraints assignments student_id seat_id constraints
        adjacent_lr adjacent_9 use_strict_non_adjacent s1 =
      check_partial_constraints assignments student_id seat_id constraints
        adjacent_lr adjacent_9 use_strict_non_adjacent s2 := by
  unfold check_partial_constraints
  rw [h]

theorem check_determined_with_session_witness :
    check_partial_constraints [] 1 1 [] (fun _ => []) (fun _ => []) true
        (fun i => if i = 1 then some ⟨1, 1, 1⟩ else none) =
      check_partial_constraints [] 1 1 [] (fun _ => []) (fun _ => []) true
        (fun _ => some ⟨1, 1, 1⟩) :=
  check_partial_constraints_determined_with_session [] 1 1 []
    (fun _ => []) (fun _ => []) true
    (fun i => if i = 1 then some ⟨1, 1, 1⟩ else none)
    (fun _ => some ⟨1, 1, 1⟩) (by decide)

/-- Counterexample to C9 as stated: two calls with IDENTICAL declared
arguments (assignment, studentId, seatId, constraints, adjacency maps,
mode) but different ambient session `seat_by_id` states return different
booleans, because the checker reads the seat's row and column from
`st.session_state["seat_by_id"]`, not from any argument. -/
theorem check_session_dependence_counterexample :
    check_partial_constraints [] 1 7 [((1 : Int), ⟨1, some [1], none, [], []⟩)]
        (fun _ => []) (fun _ => []) true (fun _ => some ⟨7, 1, 1⟩) ≠
      check_partial_constraints [] 1 7 [((1 : Int), ⟨1, some [1], none, [], []⟩)]
        (fun _ => []) (fun _ => []) true (fun _ => some ⟨7, 2, 2⟩) := by
  decide

/-- Counterexample to C8 as stated: a single checker call on defaultdict
adjacency maps can grow their key sets.  Here student 1 must sit next to
the already-placed student 2, seat 1 has no entry in `adjacent_lr`, and the
subscript `adjacent_lr[seat_id]` inserts key 1 with an empty set: the map
after the call is `[(1, [])]`, not the `[]` it was before. -/
theorem check_mutates_adjacency_keys_counterexample :
    (check_partial_constraintsD [((2 : Int), (5 : Int))] 1 1
        [((1 : Int), ⟨1, none, none, [2], []⟩)] [] [] true
        (fun _ => some ⟨1, 1, 1⟩)).2.1 ≠ ([] : List (Int × List Int)) := by
  decide

/-! ## Multi-layout generation (C3, C10) -/

theorem gen_loop_invariant {R : Type} (shuffle : R → List Int → List Int × R)
    (seat_by_id : Int → Option Seat) (num_layouts : Nat) (seats : List Seat)
    (constraints : List (Int × StudentConstraint))
    (adjacent_lr adjacent_9 : Int → List Int) (strict : Bool) :
    ∀ (fuel : Nat) (students : List Int)
      (layouts seen : List (List (Int × Int))) (attempts : Nat) (g : R)
      (out : GenResult R),
      gen_loop shuffle seat_by_id num_layouts seats constraints adjacent_lr
        adjacent_9 strict fuel students layouts seen attempts g = some out →
      (layouts.map canonical).Nodup →
      (∀ l ∈ layouts, canonical l ∈ seen) →
      layouts.length ≤ num_layouts →
      (out.layouts.map canonical).Nodup ∧
      out.layouts.length ≤ num_layouts ∧
      out.attempts ≤ attempts + fuel ∧
      (out.layouts.length = num_layouts ∨ out.attempts = attempts + fuel) := by
  intro fuel
  induction fuel with
  | zero =>
    intro students layouts seen attempts g out h hnd hseen hle
    simp only [gen_loop, Option.some.injEq] at h
    subst h
    exact ⟨hnd, hle, Nat.le_refl _, Or.inr rfl⟩
  | succ n ih =>
    intro students layouts seen attempts g out h hnd hseen hle
    unfold gen_loop at h
    by_cases hlen : layouts.length < num_layouts
    · rw [if_pos hlen] at h
      dsimp only at h
      cases hs : solve_one_assignment shuffle seat_by_id
          (shuffle g students).1 seats constraints adjacent_lr adjacent_9
          strict (shuffle g students).2 with
      | none => rw [hs] at h; cases h
      | some pr =>
        obtain ⟨or, g2⟩ := pr
        rw [hs] at h
        cases or with
        | none =>
          obtain ⟨o1, o2, o3, o4⟩ := ih (shuffle g students).1 layouts seen
            (attempts + 1) g2 out h hnd hseen hle
          refine ⟨o1, o2, by omega, ?_⟩
          rcases o4 with o4 | o4
          · exact Or.inl o4
          · exact Or.inr (by omega)
        | some result =>
          dsimp only at h
          by_cases hdup : canonical result ∈ seen
          · rw [if_pos hdup] at h
            obtain ⟨o1, o2, o3, o4⟩ := ih (shuffle g students).1 layouts seen
              (attempts + 1) g2 out h hnd hseen hle
            refine ⟨o1, o2, by omega, ?_⟩
            rcases o4 with o4 | o4
            · exact Or.inl o4
            · exact Or.inr (by omega)
          · rw [if_neg hdup] at h
            have hnd' : ((layouts ++ [result]).map canonical).Nodup := by
              rw [List.map_append]
              refine List.Nodup.append hnd (by simp) ?_
              intro x hx hx2
              simp only [List.map_cons, List.map_nil,
                List.mem_singleton] at hx2
              subst hx2
              rw [List.mem_map] at hx
              obtain ⟨l, hl, hcl⟩ := hx
              exact hdup (hcl ▸ hseen l hl)
            have hseen' : ∀ l ∈ layouts ++ [result],
                canonical l ∈ seen ++ [canonical result] := by
              intro l hl
              rcases List.mem_append.mp hl with hl | hl
              · exact List.mem_append.mpr (Or.inl (hseen l hl))
              · rw [List.mem_singleton] at hl
                subst hl
                exact List.mem_append.mpr (Or.inr (List.mem_singleton.mpr rfl))
            have hle' : (layouts ++ [result]).length ≤ num_layouts := by
              rw [List.length_append]
              simpa using hlen
            obtain ⟨o1, o2, o3, o4⟩ := ih (shuffle g students).1
              (layouts ++ [result]) (seen ++ [canonical result])
              (attempts + 1) g2 out h hnd' hseen' hle'
            refine ⟨o1, o2, by omega, ?_⟩
            rcases o4 with o4 | o4
            · exact Or.inl o4
            · exact Or.inr (by omega)
    · rw [if_neg hlen] at h
      obtain rfl := Option.some.inj h
      exact ⟨hnd, hle, Nat.le_add_right _ _,
        Or.inl (Nat.le_antisymm hle (Nat.le_of_not_lt hlen))⟩

/-- C3: on every non-raising run, `generate_multiple_layouts` returns at
most `num_layouts` assignments, pairwise distinct under the canonical form
`tuple(sorted(items))`; the solver is invoked exactly once per attempt and
at most `num_layouts * 30` times; the loop stops only once `num_layouts`
layouts are collected or the whole budget is consumed; and one loop step on
a duplicate solver result discards it — `layouts` and `seen` are unchanged
— while still consuming one attempt. -/
theorem generate_multiple_layouts_spec {R : Type}
    (shuffle : R → List Int → List Int × R) (seat_by_id : Int → Option Seat)
    (num_layouts : Nat) (students : List Int) (seats : List Seat)
    (constraints : List (Int × StudentConstraint))
    (adjacent_lr adjacent_9 : Int → List Int) (strict : Bool) (g : R)
    (out : GenResult R)
    (h : generate_multiple_layouts shuffle seat_by_id num_layouts students
      seats constraints adjacent_lr adjacent_9 strict g = some out) :
    out.layouts.length ≤ num_layouts ∧
    (out.layouts.map canonical).Nodup ∧
    out.attempts ≤ num_layouts * 30 ∧
    (out.layouts.length = num_layouts ∨ out.attempts = num_layouts * 30) ∧
    (∀ (fuel : Nat) (students2 : List Int)
       (layouts seen : List (List (Int × Int))) (attempts : Nat) (g1 g2 : R)
       (result : List (Int × Int)),
       layouts.length < num_layouts →
       solve_one_assignment shuffle seat_by_id (shuffle g1 students2).1 seats
         constraints adjacent_lr adjacent_9 strict (shuffle g1 students2).2 =
           some (some result, g2) →
       canonical result ∈ seen →
       gen_loop shuffle seat_by_id num_layouts seats constraints adjacent_lr
           adjacent_9 strict (fuel + 1) students2 layouts seen attempts g1 =
         gen_loop shuffle seat_by_id num_layouts seats constraints adjacent_lr
           adjacent_9 strict fuel (shuffle g1 students2).1 layouts seen
           (attempts + 1) g2) := by
  unfold generate_multiple_layouts at h
  obtain ⟨o1, o2, o3, o4⟩ := gen_loop_invariant shuffle seat_by_id num_layouts
    seats constraints adjacent_lr adjacent_9 strict (num_layouts * 30)
    students [] [] 0 g out h (by simp) (by simp) (by simp)
  refine ⟨o2, o1, by simpa using o3, ?_, ?_⟩
  · rcases o4 with o4 | o4
    · exact Or.inl o4
    · exact Or.inr (by simpa using o4)
  · intro fuel students2 layouts seen attempts g1 g2 result hlen hsolve hdup
    conv_lhs => rw [gen_loop]
    rw [if_pos hlen]
    dsimp only
    rw [hsolve]
    dsimp only
    rw [if_pos hdup]

theorem generate_multiple_layouts_spec_witness :
    ([[((1 : Int), (1 : Int)), (2, 2)]].map canonical).Nodup ∧
    ([[((1 : Int), (1 : Int)), (2, 2)]] : List (List (Int × Int))).length ≤ 1 :=
  have H := generate_multiple_layouts_spec idShuffle exSession 1 [1, 2] exSeats
    exConstraints exLR exBox true ()
    ⟨[[(1, 1), (2, 2)]], [1, 2], 1, ()⟩ (by decide)
  ⟨H.2.1, H.1⟩

/-- A PRNG oracle that reverses each list it shuffles (another possible
behaviour of `random.shuffle`). -/
def revShuffle : Unit → List Int → List Int × Unit := fun g l => (l.reverse, g)

/-- C10: `generate_multiple_layouts` shuffles its `students` list argument
in place (modelled by returning the post-call list): after a call the
caller's list can be in a different order than it was passed in — here
`[1, 2]` comes back `[2, 1]` — so a caller needing its original order must
pass a copy, as the UI layer does with `student_ids.copy()`. -/
theorem generate_shuffles_students_in_place :
    (generate_multiple_layouts revShuffle exSession 1 [1, 2] exSeats []
        exLR exBox true ()).map (fun out => out.students) = some [2, 1] ∧
    [(2 : Int), 1] ≠ [1, 2] := by
  constructor
  · decide
  · decide

/-! ## Capacity-unsatisfiable instance: two students, one seat -/

/-- A single-seat layout (capacity-unsatisfiable for two students). -/
def uSeats : List Seat := [⟨1, 1, 1⟩]

/-- Session seat lookup matching `uSeats`. -/
def uSession : Int → Option Seat := fun i => dget [((1 : Int), Seat.mk 1 1 1)] i

/-- Left-right adjacency view of `uSeats` (empty). -/
def uLR : Int → List Int := dview (build_adjacency_maps uSeats).1

/-- 8-neighbourhood adjacency view of `uSeats` (empty). -/
def uBox : Int → List Int := dview (build_adjacency_maps uSeats).2

/-- No legal assignment fits two students into the one-seat layout: both
students would need the only seat of the room, violating injectivity. -/
theorem one_seat_two_students_no_legal :
    ¬ ∃ a, LegalAssignment [1, 2] uSeats [] uLR uBox true a := by
  rintro ⟨a, hcov, -, hvnd, hseats, -, -⟩
  have h1 : (1 : Int) ∈ a.map Prod.fst := (hcov 1).mpr (by decide)
  have h2 : (2 : Int) ∈ a.map Prod.fst := (hcov 2).mpr (by decide)
  obtain ⟨p1, hp1, hp1k⟩ := List.mem_map.mp h1
  obtain ⟨p2, hp2, hp2k⟩ := List.mem_map.mp h2
  obtain ⟨s1, hs1, hs1id⟩ := hseats p1 hp1
  obtain ⟨s2, hs2, hs2id⟩ := hseats p2 hp2
  have hseat1 : s1 = ⟨1, 1, 1⟩ := by
    rcases List.mem_cons.mp hs1 with h | h
    · exact h
    · cases h
  have hseat2 : s2 = ⟨1, 1, 1⟩ := by
    rcases List.mem_cons.mp hs2 with h | h
    · exact h
    · cases h
  have hv12 : p1.2 = p2.2 := by
    rw [← hs1id, ← hs2id, hseat1, hseat2]
  have hpp : p1 = p2 := List.inj_on_of_nodup_map hvnd hp1 hp2 hv12
  rw [hpp] at hp1k
  rw [hp2k] at hp1k
  exact absurd hp1k (by decide)

theorem unsat_returns_none_witness :
    (solve_one_assignment idShuffle uSession [1, 2] uSeats [] uLR uBox
      true ()).map Prod.fst = some none :=
  unsat_returns_none_not_exception.2.2.1 Unit idShuffle (fun g l x hx => hx)
    uSession [1, 2] uSeats [] uLR uBox true () (by decide) (by decide)
    (fun x y => dview_build_fst_symm uSeats x y)
    (fun x y => dview_build_snd_symm uSeats x y) (by decide)
    one_seat_two_students_no_legal
